import Mathlib

/-!
Verification of the reconciliation-report engine
(`packages/api/lambdas/create-reconciliation-report.js`, bundled in the given
sources inside `src/packages/api/endpoints/providers.js`).

The JavaScript source is shallowly embedded: each reconciler becomes a Lean
function over explicit data; the paginated queue classes
(`S3ListObjectsV2Queue`, `DynamoDbSearchQueue`, `CMRSearchConceptQueue`,
`ESCollectionGranuleQueue`) live outside the given sources, so they are
modelled from the spec (§4.1 SortedCursor) as a list of pages consumed
through `peek`/`shift`.  External pure collaborators (`BucketsConfig`,
`constructOnlineAccessUrl`, lodash `camelCase`, JavaScript date parsing) are
either parameters of the embedding or small models noted at their
definitions.
-/

/-- Embedding of `buildS3Uri` of `@cumulus/aws-client/S3`
(`src/packages/aws-client/src/Kinesis.ts`, line 126):
`` `s3://${bucket}/${key.replace(/^\/+/, '')}` `` — the canonical URI used as
the comparison key, with the key's leading slashes stripped (the regex
`/^\/+/` removes the one maximal run of `/` at the start of the key). -/
def buildS3Uri (bucket key : String) : String :=
  "s3://" ++ bucket ++ "/" ++ String.mk (key.toList.dropWhile (fun c => c = '/'))

/-- Modelled from the spec (§4.1 SortedCursor): a paginated listing source is
the list of the pages it returns, in order.  `peek` looks at the head item,
fetching past empty pages, without consuming it. -/
def pagesPeek {α : Type} : List (List α) → Option α
  | [] => none
  | [] :: rest => pagesPeek rest
  | (x :: _) :: _ => some x

/-- Modelled from the spec (§4.1 SortedCursor): `shift` consumes the head item
(the value it returns is the one `pagesPeek` sees); this is the cursor state
after the shift. -/
def pagesShift {α : Type} : List (List α) → List (List α)
  | [] => []
  | [] :: rest => pagesShift rest
  | (_ :: xs) :: rest => xs :: rest

theorem pagesPeek_flatten {α : Type} (c : List (List α)) :
    pagesPeek c = c.flatten.head? := by
  induction c with
  | nil => rfl
  | cons p rest ih =>
    cases p with
    | nil => simpa [pagesPeek] using ih
    | cons x xs => simp [pagesPeek]

theorem pagesShift_flatten {α : Type} (c : List (List α)) :
    (pagesShift c).flatten = c.flatten.tail := by
  induction c with
  | nil => rfl
  | cons p rest ih =>
    cases p with
    | nil => simpa [pagesShift] using ih
    | cons x xs => simp [pagesShift]

theorem pagesPeek_some_flatten {α : Type} {c : List (List α)} {x : α}
    (h : pagesPeek c = some x) : c.flatten = x :: (pagesShift c).flatten := by
  have hp := pagesPeek_flatten c
  rw [h] at hp
  rw [pagesShift_flatten]
  cases hf : c.flatten with
  | nil => rw [hf] at hp; simp at hp
  | cons a as =>
    rw [hf] at hp
    simp at hp
    simp [hp]

theorem pagesShift_length_lt {α : Type} {c : List (List α)} {x : α}
    (h : pagesPeek c = some x) :
    (pagesShift c).flatten.length < c.flatten.length := by
  have := pagesPeek_some_flatten h
  rw [this]
  simp

theorem pagesPeek_none_flatten {α : Type} {c : List (List α)}
    (h : pagesPeek c = none) : c.flatten = [] := by
  have hp := pagesPeek_flatten c
  rw [h] at hp
  cases hf : c.flatten with
  | nil => rfl
  | cons a as => rw [hf] at hp; simp at hp

/-! ## Bucket-level reconciliation (`createReconciliationReportForBucket`) -/

/-- An object of the S3 listing (`s3ObjectsQueue` item, field `Key`). -/
structure S3Object where
  Key : String
deriving Repr, DecidableEq

/-- A record of the DynamoDB granule-files cache for one bucket
(`dynamoDbFilesLister` item, fields `key` and `granuleId`). -/
structure DynamoItem where
  key : String
  granuleId : String
deriving Repr, DecidableEq

/-- An entry of `onlyInDynamoDb` (`{ uri, granuleId }`). -/
structure DynamoEntry where
  uri : String
  granuleId : String
deriving Repr, DecidableEq

/-- The bucket-level sub-report: `okCount`, `onlyInS3`, `onlyInDynamoDb`,
`okCountByGranule` (the JS object modelled as an association list in key
insertion order). -/
structure BucketReport where
  okCount : Nat
  onlyInS3 : List String
  onlyInDynamoDb : List DynamoEntry
  okCountByGranule : List (String × Nat)
deriving Repr, DecidableEq

/-- Embeds `if (!okCountByGranule[g]) okCountByGranule[g] = 0`: a missing key
is appended with count 0 (an existing key is re-assigned its own value when it
is 0, which changes nothing). -/
def ensureGranuleKey (m : List (String × Nat)) (g : String) : List (String × Nat) :=
  match m.find? (fun p => p.1 = g) with
  | some _ => m
  | none => m ++ [(g, 0)]

/-- Embeds `okCountByGranule[g] += 1` (the key is present, having been ensured
at the top of the loop body). -/
def bumpGranuleCount (m : List (String × Nat)) (g : String) : List (String × Nat) :=
  m.map (fun p => if p.1 = g then (p.1, p.2 + 1) else p)

/-- The main `while (nextS3Object && nextDynamoDbItem)` merge loop of
`createReconciliationReportForBucket`, consuming the two paginated queues
through peek and shift.  Returns the accumulated report together with the
queue states at loop exit (the drain loops consume those afterwards). -/
def bucketCompareLoop (Bucket : String) (s3Q : List (List S3Object))
    (dynQ : List (List DynamoItem)) (acc : BucketReport) :
    BucketReport × List (List S3Object) × List (List DynamoItem) :=
  match hs : pagesPeek s3Q, hd : pagesPeek dynQ with
  | some nextS3Object, some nextDynamoDbItem =>
    let nextS3Uri := buildS3Uri Bucket nextS3Object.Key
    let nextDynamoDbUri := buildS3Uri Bucket nextDynamoDbItem.key
    let acc := { acc with
      okCountByGranule := ensureGranuleKey acc.okCountByGranule nextDynamoDbItem.granuleId }
    if nextS3Uri < nextDynamoDbUri then
      -- found an item that is only in S3 and not in DynamoDB
      bucketCompareLoop Bucket (pagesShift s3Q) dynQ
        { acc with onlyInS3 := acc.onlyInS3 ++ [nextS3Uri] }
    else if nextDynamoDbUri < nextS3Uri then
      -- found an item that is only in DynamoDB and not in S3
      bucketCompareLoop Bucket s3Q (pagesShift dynQ)
        { acc with onlyInDynamoDb := acc.onlyInDynamoDb ++
            [⟨buildS3Uri Bucket nextDynamoDbItem.key, nextDynamoDbItem.granuleId⟩] }
    else
      -- found an item that is in both S3 and DynamoDB
      bucketCompareLoop Bucket (pagesShift s3Q) (pagesShift dynQ)
        { acc with
          okCount := acc.okCount + 1
          okCountByGranule := bumpGranuleCount acc.okCountByGranule nextDynamoDbItem.granuleId }
  | _, _ => (acc, s3Q, dynQ)
termination_by s3Q.flatten.length + dynQ.flatten.length
decreasing_by
  · have := pagesShift_length_lt hs
    omega
  · have := pagesShift_length_lt hd
    omega
  · have h1 := pagesShift_length_lt hs
    have h2 := pagesShift_length_lt hd
    omega

/-- The `while (await s3ObjectsQueue.peek())` drain loop: remaining S3 items
are pushed onto `onlyInS3`. -/
def bucketDrainS3 (Bucket : String) (s3Q : List (List S3Object))
    (onlyInS3 : List String) : List String :=
  match hs : pagesPeek s3Q with
  | some s3Object =>
    bucketDrainS3 Bucket (pagesShift s3Q) (onlyInS3 ++ [buildS3Uri Bucket s3Object.Key])
  | none => onlyInS3
termination_by s3Q.flatten.length
decreasing_by
  have := pagesShift_length_lt hs
  omega

/-- The `while (await dynamoDbFilesLister.peek())` drain loop: remaining
DynamoDB items are pushed onto `onlyInDynamoDb`. -/
def bucketDrainDynamo (Bucket : String) (dynQ : List (List DynamoItem))
    (onlyInDynamoDb : List DynamoEntry) : List DynamoEntry :=
  match hd : pagesPeek dynQ with
  | some dynamoDbItem =>
    bucketDrainDynamo Bucket (pagesShift dynQ)
      (onlyInDynamoDb ++ [⟨buildS3Uri Bucket dynamoDbItem.key, dynamoDbItem.granuleId⟩])
  | none => onlyInDynamoDb
termination_by dynQ.flatten.length
decreasing_by
  have := pagesShift_length_lt hd
  omega

/-- Embedding of `createReconciliationReportForBucket(Bucket)`: the merge loop
over the S3 listing queue and the DynamoDB files queue, followed by the two
drain loops.  The queue contents (pages delivered by the external paginated
APIs) are the function's explicit arguments. -/
def createReconciliationReportForBucket (Bucket : String)
    (s3Q : List (List S3Object)) (dynQ : List (List DynamoItem)) : BucketReport :=
  let start : BucketReport :=
    { okCount := 0
      onlyInS3 := []
      onlyInDynamoDb := []
      okCountByGranule := [] }
  let out := bucketCompareLoop Bucket s3Q dynQ start
  { out.1 with
    onlyInS3 := bucketDrainS3 Bucket out.2.1 out.1.onlyInS3
    onlyInDynamoDb := bucketDrainDynamo Bucket out.2.2 out.1.onlyInDynamoDb }

/-- List-level model of the bucket merge loop plus its drains: the same
computation on the flattened sequences, used to relate the cursor-driven
function to the mathematical merge-join. -/
def bucketCompareList (Bucket : String) :
    List S3Object → List DynamoItem → BucketReport → BucketReport
  | o :: s3Rest, d :: dynRest, acc =>
    let nextS3Uri := buildS3Uri Bucket o.Key
    let nextDynamoDbUri := buildS3Uri Bucket d.key
    let acc := { acc with
      okCountByGranule := ensureGranuleKey acc.okCountByGranule d.granuleId }
    if nextS3Uri < nextDynamoDbUri then
      bucketCompareList Bucket s3Rest (d :: dynRest)
        { acc with onlyInS3 := acc.onlyInS3 ++ [nextS3Uri] }
    else if nextDynamoDbUri < nextS3Uri then
      bucketCompareList Bucket (o :: s3Rest) dynRest
        { acc with onlyInDynamoDb := acc.onlyInDynamoDb ++
            [⟨buildS3Uri Bucket d.key, d.granuleId⟩] }
    else
      bucketCompareList Bucket s3Rest dynRest
        { acc with
          okCount := acc.okCount + 1
          okCountByGranule := bumpGranuleCount acc.okCountByGranule d.granuleId }
  | s3, dyn, acc =>
    { acc with
      onlyInS3 := acc.onlyInS3 ++ s3.map (fun o => buildS3Uri Bucket o.Key)
      onlyInDynamoDb := acc.onlyInDynamoDb ++
        dyn.map (fun d => ⟨buildS3Uri Bucket d.key, d.granuleId⟩) }
termination_by s3 dyn => s3.length + dyn.length

theorem bucketDrainS3_none {Bucket : String} {s3Q : List (List S3Object)}
    {onlyInS3 : List String} (h : pagesPeek s3Q = none) :
    bucketDrainS3 Bucket s3Q onlyInS3 = onlyInS3 := by
  rw [bucketDrainS3.eq_def]
  split <;> simp_all

theorem bucketDrainS3_step {Bucket : String} {s3Q : List (List S3Object)}
    {onlyInS3 : List String} {o : S3Object} (h : pagesPeek s3Q = some o) :
    bucketDrainS3 Bucket s3Q onlyInS3 =
      bucketDrainS3 Bucket (pagesShift s3Q) (onlyInS3 ++ [buildS3Uri Bucket o.Key]) := by
  conv_lhs => rw [bucketDrainS3.eq_def]
  split <;> simp_all

theorem bucketDrainDynamo_none {Bucket : String} {dynQ : List (List DynamoItem)}
    {onlyInDynamoDb : List DynamoEntry} (h : pagesPeek dynQ = none) :
    bucketDrainDynamo Bucket dynQ onlyInDynamoDb = onlyInDynamoDb := by
  rw [bucketDrainDynamo.eq_def]
  split <;> simp_all

theorem bucketDrainDynamo_step {Bucket : String} {dynQ : List (List DynamoItem)}
    {onlyInDynamoDb : List DynamoEntry} {d : DynamoItem} (h : pagesPeek dynQ = some d) :
    bucketDrainDynamo Bucket dynQ onlyInDynamoDb =
      bucketDrainDynamo Bucket (pagesShift dynQ)
        (onlyInDynamoDb ++ [⟨buildS3Uri Bucket d.key, d.granuleId⟩]) := by
  conv_lhs => rw [bucketDrainDynamo.eq_def]
  split <;> simp_all

theorem bucketDrainS3_spec (Bucket : String) (s3Q : List (List S3Object))
    (onlyInS3 : List String) :
    bucketDrainS3 Bucket s3Q onlyInS3 =
      onlyInS3 ++ s3Q.flatten.map (fun o => buildS3Uri Bucket o.Key) := by
  generalize hn : s3Q.flatten.length = n
  induction n using Nat.strong_induction_on generalizing s3Q onlyInS3 with
  | _ n ih =>
    cases hs : pagesPeek s3Q with
    | none => rw [bucketDrainS3_none hs, pagesPeek_none_flatten hs]; simp
    | some o =>
      have hf := pagesPeek_some_flatten hs
      have hlt := pagesShift_length_lt hs
      subst hn
      rw [bucketDrainS3_step hs, ih (pagesShift s3Q).flatten.length hlt _ _ rfl, hf]
      simp

theorem bucketDrainDynamo_spec (Bucket : String) (dynQ : List (List DynamoItem))
    (onlyInDynamoDb : List DynamoEntry) :
    bucketDrainDynamo Bucket dynQ onlyInDynamoDb =
      onlyInDynamoDb ++ dynQ.flatten.map
        (fun d => (⟨buildS3Uri Bucket d.key, d.granuleId⟩ : DynamoEntry)) := by
  generalize hn : dynQ.flatten.length = n
  induction n using Nat.strong_induction_on generalizing dynQ onlyInDynamoDb with
  | _ n ih =>
    cases hd : pagesPeek dynQ with
    | none => rw [bucketDrainDynamo_none hd, pagesPeek_none_flatten hd]; simp
    | some d =>
      have hf := pagesPeek_some_flatten hd
      have hlt := pagesShift_length_lt hd
      subst hn
      rw [bucketDrainDynamo_step hd, ih (pagesShift dynQ).flatten.length hlt _ _ rfl, hf]
      simp

theorem bucketCompareLoop_exit_left {Bucket : String} {s3Q : List (List S3Object)}
    {dynQ : List (List DynamoItem)} {acc : BucketReport}
    (h : pagesPeek s3Q = none) :
    bucketCompareLoop Bucket s3Q dynQ acc = (acc, s3Q, dynQ) := by
  rw [bucketCompareLoop.eq_def]
  split <;> simp_all

theorem bucketCompareLoop_exit_right {Bucket : String} {s3Q : List (List S3Object)}
    {dynQ : List (List DynamoItem)} {acc : BucketReport}
    (h : pagesPeek dynQ = none) :
    bucketCompareLoop Bucket s3Q dynQ acc = (acc, s3Q, dynQ) := by
  rw [bucketCompareLoop.eq_def]
  split <;> simp_all

theorem bucketCompareLoop_step {Bucket : String} {s3Q : List (List S3Object)}
    {dynQ : List (List DynamoItem)} {acc : BucketReport} {o : S3Object} {d : DynamoItem}
    (hs : pagesPeek s3Q = some o) (hd : pagesPeek dynQ = some d) :
    bucketCompareLoop Bucket s3Q dynQ acc =
      (let nextS3Uri := buildS3Uri Bucket o.Key
       let nextDynamoDbUri := buildS3Uri Bucket d.key
       let acc2 : BucketReport := { acc with
         okCountByGranule := ensureGranuleKey acc.okCountByGranule d.granuleId }
       if nextS3Uri < nextDynamoDbUri then
         bucketCompareLoop Bucket (pagesShift s3Q) dynQ
           { acc2 with onlyInS3 := acc2.onlyInS3 ++ [nextS3Uri] }
       else if nextDynamoDbUri < nextS3Uri then
         bucketCompareLoop Bucket s3Q (pagesShift dynQ)
           { acc2 with onlyInDynamoDb := acc2.onlyInDynamoDb ++
               [⟨buildS3Uri Bucket d.key, d.granuleId⟩] }
       else
         bucketCompareLoop Bucket (pagesShift s3Q) (pagesShift dynQ)
           { acc2 with
             okCount := acc2.okCount + 1
             okCountByGranule := bumpGranuleCount acc2.okCountByGranule d.granuleId }) := by
  conv_lhs => rw [bucketCompareLoop.eq_def]
  split <;> simp_all

theorem bucketCompareList_base {Bucket : String} {s3 : List S3Object}
    {dyn : List DynamoItem} {acc : BucketReport}
    (h : s3 = [] ∨ dyn = []) :
    bucketCompareList Bucket s3 dyn acc =
      { acc with
        onlyInS3 := acc.onlyInS3 ++ s3.map (fun o => buildS3Uri Bucket o.Key)
        onlyInDynamoDb := acc.onlyInDynamoDb ++
          dyn.map (fun d => ⟨buildS3Uri Bucket d.key, d.granuleId⟩) } := by
  rw [bucketCompareList.eq_def]
  rcases h with h | h <;> subst h <;> split <;> simp_all

theorem bucketCompareList_cons {Bucket : String} {o : S3Object} {s3Rest : List S3Object}
    {d : DynamoItem} {dynRest : List DynamoItem} {acc : BucketReport} :
    bucketCompareList Bucket (o :: s3Rest) (d :: dynRest) acc =
      (let nextS3Uri := buildS3Uri Bucket o.Key
       let nextDynamoDbUri := buildS3Uri Bucket d.key
       let acc2 : BucketReport := { acc with
         okCountByGranule := ensureGranuleKey acc.okCountByGranule d.granuleId }
       if nextS3Uri < nextDynamoDbUri then
         bucketCompareList Bucket s3Rest (d :: dynRest)
           { acc2 with onlyInS3 := acc2.onlyInS3 ++ [nextS3Uri] }
       else if nextDynamoDbUri < nextS3Uri then
         bucketCompareList Bucket (o :: s3Rest) dynRest
           { acc2 with onlyInDynamoDb := acc2.onlyInDynamoDb ++
               [⟨buildS3Uri Bucket d.key, d.granuleId⟩] }
       else
         bucketCompareList Bucket s3Rest dynRest
           { acc2 with
             okCount := acc2.okCount + 1
             okCountByGranule := bumpGranuleCount acc2.okCountByGranule d.granuleId }) := by
  conv_lhs => rw [bucketCompareList.eq_def]

/-- The cursor-driven bucket reconciliation equals the list-level model run on
the flattened page contents. -/
theorem createReconciliationReportForBucket_flatten (Bucket : String)
    (s3Q : List (List S3Object)) (dynQ : List (List DynamoItem)) :
    createReconciliationReportForBucket Bucket s3Q dynQ =
      bucketCompareList Bucket s3Q.flatten dynQ.flatten
        { okCount := 0, onlyInS3 := [], onlyInDynamoDb := [], okCountByGranule := [] } := by
  suffices h : ∀ (n : Nat) (s3Q : List (List S3Object)) (dynQ : List (List DynamoItem))
      (acc : BucketReport), s3Q.flatten.length + dynQ.flatten.length ≤ n →
      (let out := bucketCompareLoop Bucket s3Q dynQ acc
       ({ out.1 with
          onlyInS3 := bucketDrainS3 Bucket out.2.1 out.1.onlyInS3
          onlyInDynamoDb := bucketDrainDynamo Bucket out.2.2 out.1.onlyInDynamoDb } : BucketReport)) =
        bucketCompareList Bucket s3Q.flatten dynQ.flatten acc by
    exact h (s3Q.flatten.length + dynQ.flatten.length) s3Q dynQ _ le_rfl
  intro n
  induction n with
  | zero =>
    intro s3Q dynQ acc hlen
    have h1 : s3Q.flatten = [] := by
      cases h : s3Q.flatten with
      | nil => rfl
      | cons a as => rw [h] at hlen; simp at hlen
    have h2 : dynQ.flatten = [] := by
      cases h : dynQ.flatten with
      | nil => rfl
      | cons a as => rw [h] at hlen; simp at hlen
    have hs : pagesPeek s3Q = none := by rw [pagesPeek_flatten, h1]; rfl
    rw [bucketCompareLoop_exit_left hs]
    simp only [h1, h2]
    rw [bucketCompareList_base (Or.inl rfl)]
    simp [bucketDrainS3_spec, bucketDrainDynamo_spec, h1, h2]
  | succ n ih =>
    intro s3Q dynQ acc hlen
    cases hs : pagesPeek s3Q with
    | none =>
      have h1 := pagesPeek_none_flatten hs
      rw [bucketCompareLoop_exit_left hs]
      simp only [h1]
      rw [bucketCompareList_base (Or.inl rfl)]
      simp [bucketDrainS3_spec, bucketDrainDynamo_spec, h1]
    | some o =>
      cases hd : pagesPeek dynQ with
      | none =>
        have h2 := pagesPeek_none_flatten hd
        rw [bucketCompareLoop_exit_right hd]
        simp only [h2]
        rw [bucketCompareList_base (Or.inr rfl)]
        simp [bucketDrainS3_spec, bucketDrainDynamo_spec, h2]
      | some d =>
        have h1 := pagesPeek_some_flatten hs
        have h2 := pagesPeek_some_flatten hd
        have l1 := pagesShift_length_lt hs
        have l2 := pagesShift_length_lt hd
        rw [bucketCompareLoop_step hs hd, h1, h2, bucketCompareList_cons]
        simp only []
        split
        · rw [← h2]
          exact ih (pagesShift s3Q) dynQ _ (by omega)
        · split
          · rw [← h1]
            exact ih s3Q (pagesShift dynQ) _ (by omega)
          · exact ih (pagesShift s3Q) (pagesShift dynQ) _ (by omega)

/-! ## Merge-join correctness helpers -/

theorem chain'_head_lt {b : String} {rest : List String}
    (h : List.Chain' (· < ·) (b :: rest)) : ∀ y ∈ rest, b < y := by
  have hp := List.chain'_iff_pairwise.mp h
  exact (List.pairwise_cons.mp hp).1

theorem chain'_lt_not_mem {x b : String} {rest : List String}
    (hchain : List.Chain' (· < ·) (b :: rest)) (hx : x < b) : x ∉ b :: rest := by
  intro hmem
  rcases List.mem_cons.mp hmem with rfl | hmem
  · exact lt_irrefl _ hx
  · exact lt_irrefl _ (hx.trans ((chain'_head_lt hchain) _ hmem))

theorem filter_mem_cons_eq {A B : List String} {b : String}
    (h : ∀ u ∈ A, b < u) :
    A.filter (fun u => decide (u ∈ b :: B)) = A.filter (fun u => decide (u ∈ B)) := by
  apply List.filter_congr
  intro u hu
  have hne : u ≠ b := ne_of_gt (h u hu)
  simp [List.mem_cons, hne]

theorem filter_not_mem_cons_eq {A B : List String} {b : String}
    (h : ∀ u ∈ A, b < u) :
    A.filter (fun u => !decide (u ∈ b :: B)) = A.filter (fun u => !decide (u ∈ B)) := by
  apply List.filter_congr
  intro u hu
  have hne : u ≠ b := ne_of_gt (h u hu)
  simp [List.mem_cons, hne]

theorem filter_key_not_mem_cons_eq {γ : Type} (f : γ → String) {D : List γ}
    {A : List String} {a : String} (h : ∀ y ∈ D, a < f y) :
    D.filter (fun d => !decide (f d ∈ a :: A)) = D.filter (fun d => !decide (f d ∈ A)) := by
  apply List.filter_congr
  intro d hd
  have hne : f d ≠ a := ne_of_gt (h d hd)
  simp [List.mem_cons, hne]


/-- Canonical URIs of an S3 listing, in listing order. -/
def s3Uris (Bucket : String) (s3 : List S3Object) : List String :=
  s3.map (fun o => buildS3Uri Bucket o.Key)

/-- Canonical URIs of the inventory records, in scan order. -/
def dynUris (Bucket : String) (dyn : List DynamoItem) : List String :=
  dyn.map (fun d => buildS3Uri Bucket d.key)

@[simp] theorem s3Uris_nil (Bucket : String) : s3Uris Bucket [] = [] := rfl

@[simp] theorem s3Uris_cons (Bucket : String) (o : S3Object) (s3 : List S3Object) :
    s3Uris Bucket (o :: s3) = buildS3Uri Bucket o.Key :: s3Uris Bucket s3 := rfl

@[simp] theorem dynUris_nil (Bucket : String) : dynUris Bucket [] = [] := rfl

@[simp] theorem dynUris_cons (Bucket : String) (d : DynamoItem) (dyn : List DynamoItem) :
    dynUris Bucket (d :: dyn) = buildS3Uri Bucket d.key :: dynUris Bucket dyn := rfl

theorem bucketCompareList_okCount (Bucket : String) :
    ∀ (s3 : List S3Object) (dyn : List DynamoItem),
    ∀ (acc : BucketReport),
    List.Chain' (· < ·) (s3Uris Bucket s3) →
    List.Chain' (· < ·) (dynUris Bucket dyn) →
    (bucketCompareList Bucket s3 dyn acc).okCount =
      acc.okCount + ((s3Uris Bucket s3).filter
        (fun u => decide (u ∈ dynUris Bucket dyn))).length := by
  intro s3 dyn
  generalize hn : s3.length + dyn.length = n
  induction n using Nat.strong_induction_on generalizing s3 dyn with
  | _ n ih =>
    intro acc hcs hcd
    match s3, dyn with
    | [], dyn =>
      rw [bucketCompareList_base (Or.inl rfl)]
      simp
    | o :: s3Rest, [] =>
      rw [bucketCompareList_base (Or.inr rfl)]
      simp
    | o :: s3Rest, dh :: dynRest =>
      have hm1 : s3Rest.length + (dh :: dynRest).length < n := by
        simp only [List.length_cons] at hn ⊢
        omega
      have hm2 : (o :: s3Rest).length + dynRest.length < n := by
        simp only [List.length_cons] at hn ⊢
        omega
      have hm3 : s3Rest.length + dynRest.length < n := by
        simp only [List.length_cons] at hn ⊢
        omega
      rw [bucketCompareList_cons]
      simp only [s3Uris_cons, dynUris_cons] at hcs hcd ⊢
      have hAgt : ∀ u ∈ s3Uris Bucket s3Rest, buildS3Uri Bucket o.Key < u :=
        chain'_head_lt hcs
      have hBgt : ∀ u ∈ dynUris Bucket dynRest, buildS3Uri Bucket dh.key < u :=
        chain'_head_lt hcd
      split
      case isTrue hlt =>
        have hnm : buildS3Uri Bucket o.Key ∉
            buildS3Uri Bucket dh.key :: dynUris Bucket dynRest :=
          chain'_lt_not_mem hcd hlt
        rw [ih _ hm1 s3Rest (dh :: dynRest) rfl _ hcs.tail hcd]
        have hfc : ((buildS3Uri Bucket o.Key :: s3Uris Bucket s3Rest).filter
            (fun u => decide (u ∈ buildS3Uri Bucket dh.key :: dynUris Bucket dynRest))) =
            ((s3Uris Bucket s3Rest).filter
            (fun u => decide (u ∈ buildS3Uri Bucket dh.key :: dynUris Bucket dynRest))) :=
          List.filter_cons_of_neg (by simpa using hnm)
        rw [hfc]
        rfl
      case isFalse hnlt =>
        split
        case isTrue hlt =>
          have hall : ∀ u ∈ buildS3Uri Bucket o.Key :: s3Uris Bucket s3Rest,
              buildS3Uri Bucket dh.key < u := by
            intro u hu
            rcases List.mem_cons.mp hu with rfl | hu
            · exact hlt
            · exact hlt.trans (hAgt _ hu)
          rw [ih _ hm2 (o :: s3Rest) dynRest rfl _ hcs hcd.tail]
          rw [show ((buildS3Uri Bucket o.Key :: s3Uris Bucket s3Rest).filter
              (fun u => decide (u ∈ buildS3Uri Bucket dh.key :: dynUris Bucket dynRest))) =
              ((buildS3Uri Bucket o.Key :: s3Uris Bucket s3Rest).filter
              (fun u => decide (u ∈ dynUris Bucket dynRest))) from filter_mem_cons_eq hall]
          simp only [s3Uris_cons]
        case isFalse hnlt2 =>
          have heq : buildS3Uri Bucket o.Key = buildS3Uri Bucket dh.key :=
            le_antisymm (not_lt.mp hnlt2) (not_lt.mp hnlt)
          rw [ih _ hm3 s3Rest dynRest rfl _ hcs.tail hcd.tail]
          have hfc : ((buildS3Uri Bucket o.Key :: s3Uris Bucket s3Rest).filter
              (fun u => decide (u ∈ buildS3Uri Bucket dh.key :: dynUris Bucket dynRest))) =
              buildS3Uri Bucket o.Key :: ((s3Uris Bucket s3Rest).filter
              (fun u => decide (u ∈ buildS3Uri Bucket dh.key :: dynUris Bucket dynRest))) :=
            List.filter_cons_of_pos (by simp [heq])
          have hcongr : (s3Uris Bucket s3Rest).filter
              (fun u => decide (u ∈ buildS3Uri Bucket dh.key :: dynUris Bucket dynRest)) =
              (s3Uris Bucket s3Rest).filter
              (fun u => decide (u ∈ dynUris Bucket dynRest)) := by
            apply filter_mem_cons_eq
            intro u hu
            rw [← heq]
            exact hAgt _ hu
          rw [hfc, hcongr]
          simp only [List.length_cons]
          have hok : (bucketCompareList Bucket s3Rest dynRest
              { acc with
                okCount := acc.okCount + 1
                okCountByGranule := bumpGranuleCount
                  (ensureGranuleKey acc.okCountByGranule dh.granuleId) dh.granuleId }).okCount =
              (bucketCompareList Bucket s3Rest dynRest
              { acc with
                okCount := acc.okCount + 1
                okCountByGranule := bumpGranuleCount
                  (ensureGranuleKey acc.okCountByGranule dh.granuleId) dh.granuleId }).okCount := rfl
          omega

theorem bucketCompareList_onlyInS3 (Bucket : String) :
    ∀ (s3 : List S3Object) (dyn : List DynamoItem),
    ∀ (acc : BucketReport),
    List.Chain' (· < ·) (s3Uris Bucket s3) →
    List.Chain' (· < ·) (dynUris Bucket dyn) →
    (bucketCompareList Bucket s3 dyn acc).onlyInS3 =
      acc.onlyInS3 ++ (s3Uris Bucket s3).filter
        (fun u => !decide (u ∈ dynUris Bucket dyn)) := by
  intro s3 dyn
  generalize hn : s3.length + dyn.length = n
  induction n using Nat.strong_induction_on generalizing s3 dyn with
  | _ n ih =>
    intro acc hcs hcd
    match s3, dyn with
    | [], dyn =>
      rw [bucketCompareList_base (Or.inl rfl)]
      simp
    | o :: s3Rest, [] =>
      rw [bucketCompareList_base (Or.inr rfl)]
      have : (s3Uris Bucket (o :: s3Rest)).filter
          (fun u => !decide (u ∈ dynUris Bucket [])) = s3Uris Bucket (o :: s3Rest) := by
        apply List.filter_eq_self.mpr
        intro u _
        simp
      rw [this]
      rfl
    | o :: s3Rest, dh :: dynRest =>
      have hm1 : s3Rest.length + (dh :: dynRest).length < n := by
        simp only [List.length_cons] at hn ⊢
        omega
      have hm2 : (o :: s3Rest).length + dynRest.length < n := by
        simp only [List.length_cons] at hn ⊢
        omega
      have hm3 : s3Rest.length + dynRest.length < n := by
        simp only [List.length_cons] at hn ⊢
        omega
      rw [bucketCompareList_cons]
      simp only [s3Uris_cons, dynUris_cons] at hcs hcd ⊢
      have hAgt : ∀ u ∈ s3Uris Bucket s3Rest, buildS3Uri Bucket o.Key < u :=
        chain'_head_lt hcs
      have hBgt : ∀ u ∈ dynUris Bucket dynRest, buildS3Uri Bucket dh.key < u :=
        chain'_head_lt hcd
      split
      case isTrue hlt =>
        have hnm : buildS3Uri Bucket o.Key ∉
            buildS3Uri Bucket dh.key :: dynUris Bucket dynRest :=
          chain'_lt_not_mem hcd hlt
        rw [ih _ hm1 s3Rest (dh :: dynRest) rfl _ hcs.tail hcd]
        have hfc : ((buildS3Uri Bucket o.Key :: s3Uris Bucket s3Rest).filter
            (fun u => !decide (u ∈ buildS3Uri Bucket dh.key :: dynUris Bucket dynRest))) =
            buildS3Uri Bucket o.Key :: ((s3Uris Bucket s3Rest).filter
            (fun u => !decide (u ∈ buildS3Uri Bucket dh.key :: dynUris Bucket dynRest))) :=
          List.filter_cons_of_pos (by simpa using hnm)
        rw [hfc]
        simp
      case isFalse hnlt =>
        split
        case isTrue hlt =>
          have hall : ∀ u ∈ buildS3Uri Bucket o.Key :: s3Uris Bucket s3Rest,
              buildS3Uri Bucket dh.key < u := by
            intro u hu
            rcases List.mem_cons.mp hu with rfl | hu
            · exact hlt
            · exact hlt.trans (hAgt _ hu)
          rw [ih _ hm2 (o :: s3Rest) dynRest rfl _ hcs hcd.tail]
          rw [show ((buildS3Uri Bucket o.Key :: s3Uris Bucket s3Rest).filter
              (fun u => !decide (u ∈ buildS3Uri Bucket dh.key :: dynUris Bucket dynRest))) =
              ((buildS3Uri Bucket o.Key :: s3Uris Bucket s3Rest).filter
              (fun u => !decide (u ∈ dynUris Bucket dynRest))) from filter_not_mem_cons_eq hall]
          simp only [s3Uris_cons]
        case isFalse hnlt2 =>
          have heq : buildS3Uri Bucket o.Key = buildS3Uri Bucket dh.key :=
            le_antisymm (not_lt.mp hnlt2) (not_lt.mp hnlt)
          rw [ih _ hm3 s3Rest dynRest rfl _ hcs.tail hcd.tail]
          have hfc : ((buildS3Uri Bucket o.Key :: s3Uris Bucket s3Rest).filter
              (fun u => !decide (u ∈ buildS3Uri Bucket dh.key :: dynUris Bucket dynRest))) =
              ((s3Uris Bucket s3Rest).filter
              (fun u => !decide (u ∈ buildS3Uri Bucket dh.key :: dynUris Bucket dynRest))) :=
            List.filter_cons_of_neg (by simp [heq])
          have hcongr : (s3Uris Bucket s3Rest).filter
              (fun u => !decide (u ∈ buildS3Uri Bucket dh.key :: dynUris Bucket dynRest)) =
              (s3Uris Bucket s3Rest).filter
              (fun u => !decide (u ∈ dynUris Bucket dynRest)) := by
            apply filter_not_mem_cons_eq
            intro u hu
            rw [← heq]
            exact hAgt _ hu
          rw [hfc, hcongr]

theorem bucketCompareList_onlyInDynamoDb (Bucket : String) :
    ∀ (s3 : List S3Object) (dyn : List DynamoItem),
    ∀ (acc : BucketReport),
    List.Chain' (· < ·) (s3Uris Bucket s3) →
    List.Chain' (· < ·) (dynUris Bucket dyn) →
    (bucketCompareList Bucket s3 dyn acc).onlyInDynamoDb =
      acc.onlyInDynamoDb ++ (dyn.filter
        (fun d => !decide (buildS3Uri Bucket d.key ∈ s3Uris Bucket s3))).map
        (fun d => ⟨buildS3Uri Bucket d.key, d.granuleId⟩) := by
  intro s3 dyn
  generalize hn : s3.length + dyn.length = n
  induction n using Nat.strong_induction_on generalizing s3 dyn with
  | _ n ih =>
    intro acc hcs hcd
    match s3, dyn with
    | [], dyn =>
      rw [bucketCompareList_base (Or.inl rfl)]
      have : dyn.filter (fun d => !decide (buildS3Uri Bucket d.key ∈ s3Uris Bucket [])) = dyn := by
        apply List.filter_eq_self.mpr
        intro d _
        simp
      rw [this]
    | o :: s3Rest, [] =>
      rw [bucketCompareList_base (Or.inr rfl)]
      simp
    | o :: s3Rest, dh :: dynRest =>
      have hm1 : s3Rest.length + (dh :: dynRest).length < n := by
        simp only [List.length_cons] at hn ⊢
        omega
      have hm2 : (o :: s3Rest).length + dynRest.length < n := by
        simp only [List.length_cons] at hn ⊢
        omega
      have hm3 : s3Rest.length + dynRest.length < n := by
        simp only [List.length_cons] at hn ⊢
        omega
      rw [bucketCompareList_cons]
      simp only [s3Uris_cons, dynUris_cons] at hcs hcd ⊢
      have hAgt : ∀ u ∈ s3Uris Bucket s3Rest, buildS3Uri Bucket o.Key < u :=
        chain'_head_lt hcs
      have hBgt : ∀ u ∈ dynUris Bucket dynRest, buildS3Uri Bucket dh.key < u :=
        chain'_head_lt hcd
      split
      case isTrue hlt =>
        rw [ih _ hm1 s3Rest (dh :: dynRest) rfl _ hcs.tail hcd]
        have hall : ∀ y ∈ dh :: dynRest, buildS3Uri Bucket o.Key < buildS3Uri Bucket y.key := by
          intro y hy
          rcases List.mem_cons.mp hy with rfl | hy
          · exact hlt
          · exact hlt.trans (hBgt _ (List.mem_map_of_mem _ hy))
        rw [show ((dh :: dynRest).filter (fun d => !decide (buildS3Uri Bucket d.key ∈
            buildS3Uri Bucket o.Key :: s3Uris Bucket s3Rest))) =
            ((dh :: dynRest).filter (fun d => !decide (buildS3Uri Bucket d.key ∈
            s3Uris Bucket s3Rest))) from
          filter_key_not_mem_cons_eq (fun d : DynamoItem => buildS3Uri Bucket d.key) hall]
      case isFalse hnlt =>
        split
        case isTrue hlt =>
          have hnm : buildS3Uri Bucket dh.key ∉
              buildS3Uri Bucket o.Key :: s3Uris Bucket s3Rest := by
            intro hmem
            rcases List.mem_cons.mp hmem with he | hmem
            · exact absurd he.symm.le (not_le.mpr hlt)
            · exact lt_irrefl _ ((hAgt _ hmem).trans hlt)
          rw [ih _ hm2 (o :: s3Rest) dynRest rfl _ hcs hcd.tail]
          have hfc : ((dh :: dynRest).filter (fun d => !decide (buildS3Uri Bucket d.key ∈
              buildS3Uri Bucket o.Key :: s3Uris Bucket s3Rest))) =
              dh :: (dynRest.filter (fun d => !decide (buildS3Uri Bucket d.key ∈
              buildS3Uri Bucket o.Key :: s3Uris Bucket s3Rest))) :=
            List.filter_cons_of_pos (by simpa using hnm)
          rw [hfc]
          simp only [s3Uris_cons, List.map_cons, List.append_assoc, List.singleton_append]
        case isFalse hnlt2 =>
          have heq : buildS3Uri Bucket o.Key = buildS3Uri Bucket dh.key :=
            le_antisymm (not_lt.mp hnlt2) (not_lt.mp hnlt)
          rw [ih _ hm3 s3Rest dynRest rfl _ hcs.tail hcd.tail]
          have hfc : ((dh :: dynRest).filter (fun d => !decide (buildS3Uri Bucket d.key ∈
              buildS3Uri Bucket o.Key :: s3Uris Bucket s3Rest))) =
              (dynRest.filter (fun d => !decide (buildS3Uri Bucket d.key ∈
              buildS3Uri Bucket o.Key :: s3Uris Bucket s3Rest))) :=
            List.filter_cons_of_neg (by simp [heq])
          have hcongr : dynRest.filter (fun d => !decide (buildS3Uri Bucket d.key ∈
              buildS3Uri Bucket o.Key :: s3Uris Bucket s3Rest)) =
              dynRest.filter (fun d => !decide (buildS3Uri Bucket d.key ∈
              s3Uris Bucket s3Rest)) := by
            apply filter_key_not_mem_cons_eq
            intro y hy
            rw [heq]
            exact hBgt _ (List.mem_map_of_mem _ hy)
          rw [hfc, hcongr]

theorem chain'_lt_nodup {l : List String} (h : List.Chain' (· < ·) l) : l.Nodup :=
  (List.chain'_iff_pairwise.mp h).imp ne_of_lt

theorem length_filter_mem_comm {A B : List String} (hA : A.Nodup) (hB : B.Nodup) :
    (A.filter (fun u => decide (u ∈ B))).length =
      (B.filter (fun u => decide (u ∈ A))).length := by
  have h1 : (A.filter (fun u => decide (u ∈ B))).length =
      (A.toFinset ∩ B.toFinset).card := by
    rw [← List.toFinset_card_of_nodup (hA.filter _)]
    congr 1
    ext x
    simp [List.mem_filter, Finset.mem_inter]
  have h2 : (B.filter (fun u => decide (u ∈ A))).length =
      (B.toFinset ∩ A.toFinset).card := by
    rw [← List.toFinset_card_of_nodup (hB.filter _)]
    congr 1
    ext x
    simp [List.mem_filter, Finset.mem_inter]
  rw [h1, h2, Finset.inter_comm]

/-- Full correctness of `createReconciliationReportForBucket` as a merge-join:
okCount counts the keys common to both stores, `onlyInS3` and `onlyInDynamoDb`
are the one-sided keys in original order, and both listing sizes decompose as
okCount plus the one-sided count. -/
theorem createReconciliationReportForBucket_spec (Bucket : String)
    (s3Q : List (List S3Object)) (dynQ : List (List DynamoItem))
    (hcs : List.Chain' (· < ·) (s3Uris Bucket s3Q.flatten))
    (hcd : List.Chain' (· < ·) (dynUris Bucket dynQ.flatten)) :
    (createReconciliationReportForBucket Bucket s3Q dynQ).okCount =
      ((s3Uris Bucket s3Q.flatten).filter
        (fun u => decide (u ∈ dynUris Bucket dynQ.flatten))).length
    ∧ (createReconciliationReportForBucket Bucket s3Q dynQ).onlyInS3 =
      (s3Uris Bucket s3Q.flatten).filter
        (fun u => !decide (u ∈ dynUris Bucket dynQ.flatten))
    ∧ (createReconciliationReportForBucket Bucket s3Q dynQ).onlyInDynamoDb =
      (dynQ.flatten.filter
        (fun d => !decide (buildS3Uri Bucket d.key ∈ s3Uris Bucket s3Q.flatten))).map
        (fun d => ⟨buildS3Uri Bucket d.key, d.granuleId⟩)
    ∧ s3Q.flatten.length = (createReconciliationReportForBucket Bucket s3Q dynQ).okCount +
        (createReconciliationReportForBucket Bucket s3Q dynQ).onlyInS3.length
    ∧ dynQ.flatten.length = (createReconciliationReportForBucket Bucket s3Q dynQ).okCount +
        (createReconciliationReportForBucket Bucket s3Q dynQ).onlyInDynamoDb.length := by
  have hok := bucketCompareList_okCount Bucket s3Q.flatten dynQ.flatten
    ⟨0, [], [], []⟩ hcs hcd
  have hs3 := bucketCompareList_onlyInS3 Bucket s3Q.flatten dynQ.flatten
    ⟨0, [], [], []⟩ hcs hcd
  have hdy := bucketCompareList_onlyInDynamoDb Bucket s3Q.flatten dynQ.flatten
    ⟨0, [], [], []⟩ hcs hcd
  rw [createReconciliationReportForBucket_flatten]
  simp only [] at hok hs3 hdy
  refine ⟨by rw [hok]; exact Nat.zero_add _, by rw [hs3]; rfl, by rw [hdy]; rfl, ?_, ?_⟩
  · rw [hok, hs3]
    have hlen := List.length_eq_length_filter_add
      (l := s3Uris Bucket s3Q.flatten)
      (fun u => decide (u ∈ dynUris Bucket dynQ.flatten))
    have hml : (s3Uris Bucket s3Q.flatten).length = s3Q.flatten.length := by
      rw [s3Uris]
      exact List.length_map _ _
    rw [hml] at hlen
    simpa using hlen
  · rw [hok, hdy]
    have hcomm := length_filter_mem_comm (chain'_lt_nodup hcs) (chain'_lt_nodup hcd)
    have hlen := List.length_eq_length_filter_add
      (l := dynUris Bucket dynQ.flatten)
      (fun u => decide (u ∈ s3Uris Bucket s3Q.flatten))
    have hlmap : (dynUris Bucket dynQ.flatten).length = dynQ.flatten.length := by
      rw [dynUris]
      exact List.length_map _ _
    have hfmap : ((dynUris Bucket dynQ.flatten).filter
        (fun u => !decide (u ∈ s3Uris Bucket s3Q.flatten))).length =
        ((dynQ.flatten.filter
          (fun d => !decide (buildS3Uri Bucket d.key ∈ s3Uris Bucket s3Q.flatten)))).length := by
      rw [dynUris, List.filter_map, List.length_map]
      rfl
    rw [hlmap, hfmap] at hlen
    rw [← hcomm] at hlen
    simp only [List.nil_append, List.length_map, Nat.zero_add]
    exact hlen

/-! ## Collection-level reconciliation (`reconciliationReportForCollections`) -/

/-- JavaScript truthiness of an optional string value (`undefined` and the
empty string are falsy). -/
def truthyOptStr : Option String → Bool
  | none => false
  | some s => !s.isEmpty

/-- The report parameters the one-way decision reads (`startTimestamp`,
`endTimestamp` of the normalized event). -/
structure RecReportParams where
  startTimestamp : Option String
  endTimestamp : Option String
deriving Repr, DecidableEq

/-- Embedding of `isOneWayReport(reportParams)`: true when the parameters hold
a truthy `startTimestamp` or `endTimestamp`. -/
def isOneWayReport (reportParams : RecReportParams) : Bool :=
  truthyOptStr reportParams.startTimestamp || truthyOptStr reportParams.endTimestamp

/-- Result of the collection-level comparison: `okCollections`,
`onlyInCumulus`, `onlyInCmr`. -/
structure CollectionsReport where
  okCollections : List String
  onlyInCumulus : List String
  onlyInCmr : List String
deriving Repr, DecidableEq

/-- The `while (nextDbCollectionId && nextCmrCollectionId)` loop of
`reconciliationReportForCollections`, including the final concatenation of the
remaining ids (the drain step), over the two sorted in-memory id sequences.
The guard tests JavaScript string truthiness: an empty-string id is falsy, so
the loop also exits (and both remainders drain) when either head is `""`. -/
def collectionsCompareLoop (oneWayReport : Bool) :
    List String → List String → CollectionsReport → CollectionsReport
  | nextDbCollectionId :: esRest, nextCmrCollectionId :: cmrRest, acc =>
    if nextDbCollectionId.isEmpty || nextCmrCollectionId.isEmpty then
      -- `while (nextDbCollectionId && nextCmrCollectionId)`: an empty string
      -- is falsy, so the loop ends here and the remainders drain
      { okCollections := acc.okCollections
        onlyInCumulus := acc.onlyInCumulus ++ nextDbCollectionId :: esRest
        onlyInCmr := if oneWayReport then acc.onlyInCmr
          else acc.onlyInCmr ++ nextCmrCollectionId :: cmrRest }
    else if nextDbCollectionId < nextCmrCollectionId then
      -- found an item that is only in Cumulus database and not in cmr
      collectionsCompareLoop oneWayReport esRest (nextCmrCollectionId :: cmrRest)
        { acc with onlyInCumulus := acc.onlyInCumulus ++ [nextDbCollectionId] }
    else if nextCmrCollectionId < nextDbCollectionId then
      -- found an item that is only in cmr and not in Cumulus database
      collectionsCompareLoop oneWayReport (nextDbCollectionId :: esRest) cmrRest
        { acc with onlyInCmr := if oneWayReport then acc.onlyInCmr
            else acc.onlyInCmr ++ [nextCmrCollectionId] }
    else
      -- found an item that is in both cmr and database
      collectionsCompareLoop oneWayReport esRest cmrRest
        { acc with okCollections := acc.okCollections ++ [nextDbCollectionId] }
  | esIds, cmrIds, acc =>
    { okCollections := acc.okCollections
      onlyInCumulus := acc.onlyInCumulus ++ esIds
      onlyInCmr := if oneWayReport then acc.onlyInCmr else acc.onlyInCmr ++ cmrIds }
termination_by esIds cmrIds => esIds.length + cmrIds.length

/-- Embedding of `reconciliationReportForCollections`: the merge over the
sorted CMR collection ids and the sorted Elasticsearch collection ids (both
fetched and sorted by external collaborators, here parameters). -/
def reconciliationReportForCollections (recReportParams : RecReportParams)
    (cmrCollectionIds esCollectionIds : List String) : CollectionsReport :=
  collectionsCompareLoop (isOneWayReport recReportParams)
    esCollectionIds cmrCollectionIds ⟨[], [], []⟩

theorem collectionsCompareLoop_base {oneWayReport : Bool} {esIds cmrIds : List String}
    {acc : CollectionsReport} (h : esIds = [] ∨ cmrIds = []) :
    collectionsCompareLoop oneWayReport esIds cmrIds acc =
      { okCollections := acc.okCollections
        onlyInCumulus := acc.onlyInCumulus ++ esIds
        onlyInCmr := if oneWayReport then acc.onlyInCmr else acc.onlyInCmr ++ cmrIds } := by
  rw [collectionsCompareLoop.eq_def]
  rcases h with h | h <;> subst h <;> split <;> simp_all

theorem collectionsCompareLoop_falsy {oneWayReport : Bool} {nextDb nextCmr : String}
    {esRest cmrRest : List String} {acc : CollectionsReport}
    (h : (nextDb.isEmpty || nextCmr.isEmpty) = true) :
    collectionsCompareLoop oneWayReport (nextDb :: esRest) (nextCmr :: cmrRest) acc =
      { okCollections := acc.okCollections
        onlyInCumulus := acc.onlyInCumulus ++ nextDb :: esRest
        onlyInCmr := if oneWayReport then acc.onlyInCmr
          else acc.onlyInCmr ++ nextCmr :: cmrRest } := by
  conv_lhs => rw [collectionsCompareLoop.eq_def]
  simp [h]

theorem collectionsCompareLoop_cons {oneWayReport : Bool} {nextDb nextCmr : String}
    {esRest cmrRest : List String} {acc : CollectionsReport}
    (hdb : nextDb.isEmpty = false) (hcm : nextCmr.isEmpty = false) :
    collectionsCompareLoop oneWayReport (nextDb :: esRest) (nextCmr :: cmrRest) acc =
      (if nextDb < nextCmr then
        collectionsCompareLoop oneWayReport esRest (nextCmr :: cmrRest)
          { acc with onlyInCumulus := acc.onlyInCumulus ++ [nextDb] }
      else if nextCmr < nextDb then
        collectionsCompareLoop oneWayReport (nextDb :: esRest) cmrRest
          { acc with onlyInCmr := if oneWayReport then acc.onlyInCmr
              else acc.onlyInCmr ++ [nextCmr] }
      else
        collectionsCompareLoop oneWayReport esRest cmrRest
          { acc with okCollections := acc.okCollections ++ [nextDb] }) := by
  conv_lhs => rw [collectionsCompareLoop.eq_def]
  simp [hdb, hcm]

/-- The head of a list avoiding `""` is a truthy (non-empty) id. -/
theorem head_isEmpty_false {e : String} {rest : List String}
    (h : ("" : String) ∉ e :: rest) : e.isEmpty = false := by
  cases he : e.isEmpty with
  | false => rfl
  | true =>
    rw [String.isEmpty_iff] at he
    subst he
    exact absurd (List.mem_cons_self _ _) h

/-- Under one-way mode the collection comparison never extends `onlyInCmr`. -/
theorem collectionsCompareLoop_oneWay :
    ∀ (esIds cmrIds : List String) (acc : CollectionsReport),
    (collectionsCompareLoop true esIds cmrIds acc).onlyInCmr = acc.onlyInCmr := by
  intro esIds cmrIds
  generalize hn : esIds.length + cmrIds.length = n
  induction n using Nat.strong_induction_on generalizing esIds cmrIds with
  | _ n ih =>
    intro acc
    match esIds, cmrIds with
    | [], cmrIds =>
      rw [collectionsCompareLoop_base (Or.inl rfl)]
      simp
    | e :: esRest, [] =>
      rw [collectionsCompareLoop_base (Or.inr rfl)]
      simp
    | e :: esRest, c :: cmrRest =>
      have hm1 : esRest.length + (c :: cmrRest).length < n := by
        simp only [List.length_cons] at hn ⊢
        omega
      have hm2 : (e :: esRest).length + cmrRest.length < n := by
        simp only [List.length_cons] at hn ⊢
        omega
      have hm3 : esRest.length + cmrRest.length < n := by
        simp only [List.length_cons] at hn ⊢
        omega
      cases hb : (e.isEmpty || c.isEmpty) with
      | true =>
        rw [collectionsCompareLoop_falsy hb]
        simp
      | false =>
        rw [collectionsCompareLoop_cons (Bool.or_eq_false_iff.mp hb).1
          (Bool.or_eq_false_iff.mp hb).2]
        split
        · rw [ih _ hm1 esRest (c :: cmrRest) rfl]
        · split
          · rw [ih _ hm2 (e :: esRest) cmrRest rfl]
            simp
          · rw [ih _ hm3 esRest cmrRest rfl]

theorem collectionsCompareLoop_ok :
    ∀ (esIds cmrIds : List String) (acc : CollectionsReport),
    List.Chain' (· < ·) esIds →
    List.Chain' (· < ·) cmrIds →
    ("" : String) ∉ esIds →
    ("" : String) ∉ cmrIds →
    (collectionsCompareLoop false esIds cmrIds acc).okCollections =
      acc.okCollections ++ esIds.filter (fun u => decide (u ∈ cmrIds)) := by
  intro esIds cmrIds
  generalize hn : esIds.length + cmrIds.length = n
  induction n using Nat.strong_induction_on generalizing esIds cmrIds with
  | _ n ih =>
    intro acc hcs hcd hesne hcmrne
    match esIds, cmrIds with
    | [], cmrIds =>
      rw [collectionsCompareLoop_base (Or.inl rfl)]
      simp
    | e :: esRest, [] =>
      rw [collectionsCompareLoop_base (Or.inr rfl)]
      simp
    | e :: esRest, c :: cmrRest =>
      have hm1 : esRest.length + (c :: cmrRest).length < n := by
        simp only [List.length_cons] at hn ⊢
        omega
      have hm2 : (e :: esRest).length + cmrRest.length < n := by
        simp only [List.length_cons] at hn ⊢
        omega
      have hm3 : esRest.length + cmrRest.length < n := by
        simp only [List.length_cons] at hn ⊢
        omega
      have hAgt : ∀ u ∈ esRest, e < u := chain'_head_lt hcs
      have hBgt : ∀ u ∈ cmrRest, c < u := chain'_head_lt hcd
      have hesne' : ("" : String) ∉ esRest :=
        fun hmem => hesne (List.mem_cons_of_mem _ hmem)
      have hcmrne' : ("" : String) ∉ cmrRest :=
        fun hmem => hcmrne (List.mem_cons_of_mem _ hmem)
      rw [collectionsCompareLoop_cons (head_isEmpty_false hesne)
        (head_isEmpty_false hcmrne)]
      split
      case isTrue hlt =>
        have hnm : e ∉ c :: cmrRest := chain'_lt_not_mem hcd hlt
        rw [ih _ hm1 esRest (c :: cmrRest) rfl _ hcs.tail hcd hesne' hcmrne]
        rw [show ((e :: esRest).filter (fun u => decide (u ∈ c :: cmrRest))) =
            (esRest.filter (fun u => decide (u ∈ c :: cmrRest))) from
          List.filter_cons_of_neg (by simpa using hnm)]
      case isFalse hnlt =>
        split
        case isTrue hlt =>
          have hall : ∀ u ∈ e :: esRest, c < u := by
            intro u hu
            rcases List.mem_cons.mp hu with rfl | hu
            · exact hlt
            · exact hlt.trans (hAgt _ hu)
          rw [ih _ hm2 (e :: esRest) cmrRest rfl _ hcs hcd.tail hesne hcmrne']
          rw [show ((e :: esRest).filter (fun u => decide (u ∈ c :: cmrRest))) =
              ((e :: esRest).filter (fun u => decide (u ∈ cmrRest))) from
            filter_mem_cons_eq hall]
        case isFalse hnlt2 =>
          have heq : e = c := le_antisymm (not_lt.mp hnlt2) (not_lt.mp hnlt)
          rw [ih _ hm3 esRest cmrRest rfl _ hcs.tail hcd.tail hesne' hcmrne']
          have hfc : ((e :: esRest).filter (fun u => decide (u ∈ c :: cmrRest))) =
              e :: (esRest.filter (fun u => decide (u ∈ c :: cmrRest))) :=
            List.filter_cons_of_pos (by simp [heq])
          have hcongr : esRest.filter (fun u => decide (u ∈ c :: cmrRest)) =
              esRest.filter (fun u => decide (u ∈ cmrRest)) := by
            apply filter_mem_cons_eq
            intro u hu
            rw [← heq]
            exact hAgt _ hu
          rw [hfc, hcongr]
          simp

theorem collectionsCompareLoop_onlyInCumulus :
    ∀ (esIds cmrIds : List String) (acc : CollectionsReport),
    List.Chain' (· < ·) esIds →
    List.Chain' (· < ·) cmrIds →
    ("" : String) ∉ esIds →
    ("" : String) ∉ cmrIds →
    (collectionsCompareLoop false esIds cmrIds acc).onlyInCumulus =
      acc.onlyInCumulus ++ esIds.filter (fun u => !decide (u ∈ cmrIds)) := by
  intro esIds cmrIds
  generalize hn : esIds.length + cmrIds.length = n
  induction n using Nat.strong_induction_on generalizing esIds cmrIds with
  | _ n ih =>
    intro acc hcs hcd hesne hcmrne
    match esIds, cmrIds with
    | [], cmrIds =>
      rw [collectionsCompareLoop_base (Or.inl rfl)]
      simp
    | e :: esRest, [] =>
      rw [collectionsCompareLoop_base (Or.inr rfl)]
      have : (e :: esRest).filter (fun u => !decide (u ∈ ([] : List String))) = e :: esRest := by
        apply List.filter_eq_self.mpr
        intro u _
        simp
      rw [this]
    | e :: esRest, c :: cmrRest =>
      have hm1 : esRest.length + (c :: cmrRest).length < n := by
        simp only [List.length_cons] at hn ⊢
        omega
      have hm2 : (e :: esRest).length + cmrRest.length < n := by
        simp only [List.length_cons] at hn ⊢
        omega
      have hm3 : esRest.length + cmrRest.length < n := by
        simp only [List.length_cons] at hn ⊢
        omega
      have hAgt : ∀ u ∈ esRest, e < u := chain'_head_lt hcs
      have hBgt : ∀ u ∈ cmrRest, c < u := chain'_head_lt hcd
      have hesne' : ("" : String) ∉ esRest :=
        fun hmem => hesne (List.mem_cons_of_mem _ hmem)
      have hcmrne' : ("" : String) ∉ cmrRest :=
        fun hmem => hcmrne (List.mem_cons_of_mem _ hmem)
      rw [collectionsCompareLoop_cons (head_isEmpty_false hesne)
        (head_isEmpty_false hcmrne)]
      split
      case isTrue hlt =>
        have hnm : e ∉ c :: cmrRest := chain'_lt_not_mem hcd hlt
        rw [ih _ hm1 esRest (c :: cmrRest) rfl _ hcs.tail hcd hesne' hcmrne]
        rw [show ((e :: esRest).filter (fun u => !decide (u ∈ c :: cmrRest))) =
            e :: (esRest.filter (fun u => !decide (u ∈ c :: cmrRest))) from
          List.filter_cons_of_pos (by simpa using hnm)]
        simp
      case isFalse hnlt =>
        split
        case isTrue hlt =>
          have hall : ∀ u ∈ e :: esRest, c < u := by
            intro u hu
            rcases List.mem_cons.mp hu with rfl | hu
            · exact hlt
            · exact hlt.trans (hAgt _ hu)
          rw [ih _ hm2 (e :: esRest) cmrRest rfl _ hcs hcd.tail hesne hcmrne']
          rw [show ((e :: esRest).filter (fun u => !decide (u ∈ c :: cmrRest))) =
              ((e :: esRest).filter (fun u => !decide (u ∈ cmrRest))) from
            filter_not_mem_cons_eq hall]
        case isFalse hnlt2 =>
          have heq : e = c := le_antisymm (not_lt.mp hnlt2) (not_lt.mp hnlt)
          rw [ih _ hm3 esRest cmrRest rfl _ hcs.tail hcd.tail hesne' hcmrne']
          have hfc : ((e :: esRest).filter (fun u => !decide (u ∈ c :: cmrRest))) =
              (esRest.filter (fun u => !decide (u ∈ c :: cmrRest))) :=
            List.filter_cons_of_neg (by simp [heq])
          have hcongr : esRest.filter (fun u => !decide (u ∈ c :: cmrRest)) =
              esRest.filter (fun u => !decide (u ∈ cmrRest)) := by
            apply filter_not_mem_cons_eq
            intro u hu
            rw [← heq]
            exact hAgt _ hu
          rw [hfc, hcongr]

theorem collectionsCompareLoop_onlyInCmr_twoWay :
    ∀ (esIds cmrIds : List String) (acc : CollectionsReport),
    List.Chain' (· < ·) esIds →
    List.Chain' (· < ·) cmrIds →
    ("" : String) ∉ esIds →
    ("" : String) ∉ cmrIds →
    (collectionsCompareLoop false esIds cmrIds acc).onlyInCmr =
      acc.onlyInCmr ++ cmrIds.filter (fun u => !decide (u ∈ esIds)) := by
  intro esIds cmrIds
  generalize hn : esIds.length + cmrIds.length = n
  induction n using Nat.strong_induction_on generalizing esIds cmrIds with
  | _ n ih =>
    intro acc hcs hcd hesne hcmrne
    match esIds, cmrIds with
    | [], cmrIds =>
      rw [collectionsCompareLoop_base (Or.inl rfl)]
      have : cmrIds.filter (fun u => !decide (u ∈ ([] : List String))) = cmrIds := by
        apply List.filter_eq_self.mpr
        intro u _
        simp
      rw [this]
      simp
    | e :: esRest, [] =>
      rw [collectionsCompareLoop_base (Or.inr rfl)]
      simp
    | e :: esRest, c :: cmrRest =>
      have hm1 : esRest.length + (c :: cmrRest).length < n := by
        simp only [List.length_cons] at hn ⊢
        omega
      have hm2 : (e :: esRest).length + cmrRest.length < n := by
        simp only [List.length_cons] at hn ⊢
        omega
      have hm3 : esRest.length + cmrRest.length < n := by
        simp only [List.length_cons] at hn ⊢
        omega
      have hAgt : ∀ u ∈ esRest, e < u := chain'_head_lt hcs
      have hBgt : ∀ u ∈ cmrRest, c < u := chain'_head_lt hcd
      have hesne' : ("" : String) ∉ esRest :=
        fun hmem => hesne (List.mem_cons_of_mem _ hmem)
      have hcmrne' : ("" : String) ∉ cmrRest :=
        fun hmem => hcmrne (List.mem_cons_of_mem _ hmem)
      rw [collectionsCompareLoop_cons (head_isEmpty_false hesne)
        (head_isEmpty_false hcmrne)]
      split
      case isTrue hlt =>
        have hall : ∀ u ∈ c :: cmrRest, e < u := by
          intro u hu
          rcases List.mem_cons.mp hu with rfl | hu
          · exact hlt
          · exact hlt.trans (hBgt _ hu)
        rw [ih _ hm1 esRest (c :: cmrRest) rfl _ hcs.tail hcd hesne' hcmrne]
        rw [show ((c :: cmrRest).filter (fun u => !decide (u ∈ e :: esRest))) =
            ((c :: cmrRest).filter (fun u => !decide (u ∈ esRest))) from
          filter_not_mem_cons_eq hall]
      case isFalse hnlt =>
        split
        case isTrue hlt =>
          have hnm : c ∉ e :: esRest := by
            intro hmem
            rcases List.mem_cons.mp hmem with he | hmem
            · exact absurd he.symm.le (not_le.mpr hlt)
            · exact lt_irrefl _ ((hAgt _ hmem).trans hlt)
          rw [ih _ hm2 (e :: esRest) cmrRest rfl _ hcs hcd.tail hesne hcmrne']
          rw [show ((c :: cmrRest).filter (fun u => !decide (u ∈ e :: esRest))) =
              c :: (cmrRest.filter (fun u => !decide (u ∈ e :: esRest))) from
            List.filter_cons_of_pos (by simpa using hnm)]
          simp
        case isFalse hnlt2 =>
          have heq : e = c := le_antisymm (not_lt.mp hnlt2) (not_lt.mp hnlt)
          rw [ih _ hm3 esRest cmrRest rfl _ hcs.tail hcd.tail hesne' hcmrne']
          have hfc : ((c :: cmrRest).filter (fun u => !decide (u ∈ e :: esRest))) =
              (cmrRest.filter (fun u => !decide (u ∈ e :: esRest))) :=
            List.filter_cons_of_neg (by simp [heq])
          have hcongr : cmrRest.filter (fun u => !decide (u ∈ e :: esRest)) =
              cmrRest.filter (fun u => !decide (u ∈ esRest)) := by
            apply List.filter_congr
            intro u hu
            have hne : u ≠ e := by
              intro he
              subst he
              exact lt_irrefl _ (heq ▸ hBgt _ hu)
            simp [List.mem_cons, hne]
          rw [hfc, hcongr]

/-- Full correctness of `reconciliationReportForCollections` as a two-way
merge-join over the two sorted in-memory id sequences. -/
theorem reconciliationReportForCollections_spec (recReportParams : RecReportParams)
    (cmrCollectionIds esCollectionIds : List String)
    (hOne : isOneWayReport recReportParams = false)
    (hces : List.Chain' (· < ·) esCollectionIds)
    (hccmr : List.Chain' (· < ·) cmrCollectionIds)
    (hesne : ("" : String) ∉ esCollectionIds)
    (hcmrne : ("" : String) ∉ cmrCollectionIds) :
    (reconciliationReportForCollections recReportParams cmrCollectionIds
        esCollectionIds).okCollections =
      esCollectionIds.filter (fun u => decide (u ∈ cmrCollectionIds))
    ∧ (reconciliationReportForCollections recReportParams cmrCollectionIds
        esCollectionIds).onlyInCumulus =
      esCollectionIds.filter (fun u => !decide (u ∈ cmrCollectionIds))
    ∧ (reconciliationReportForCollections recReportParams cmrCollectionIds
        esCollectionIds).onlyInCmr =
      cmrCollectionIds.filter (fun u => !decide (u ∈ esCollectionIds))
    ∧ esCollectionIds.length =
      (reconciliationReportForCollections recReportParams cmrCollectionIds
        esCollectionIds).okCollections.length +
      (reconciliationReportForCollections recReportParams cmrCollectionIds
        esCollectionIds).onlyInCumulus.length
    ∧ cmrCollectionIds.length =
      (reconciliationReportForCollections recReportParams cmrCollectionIds
        esCollectionIds).okCollections.length +
      (reconciliationReportForCollections recReportParams cmrCollectionIds
        esCollectionIds).onlyInCmr.length := by
  have hok := collectionsCompareLoop_ok esCollectionIds cmrCollectionIds
    ⟨[], [], []⟩ hces hccmr hesne hcmrne
  have hcu := collectionsCompareLoop_onlyInCumulus esCollectionIds cmrCollectionIds
    ⟨[], [], []⟩ hces hccmr hesne hcmrne
  have hcm := collectionsCompareLoop_onlyInCmr_twoWay esCollectionIds cmrCollectionIds
    ⟨[], [], []⟩ hces hccmr hesne hcmrne
  rw [reconciliationReportForCollections, hOne]
  simp only [List.nil_append] at hok hcu hcm
  refine ⟨hok, hcu, hcm, ?_, ?_⟩
  · rw [hok, hcu]
    have hlen := List.length_eq_length_filter_add (l := esCollectionIds)
      (fun u => decide (u ∈ cmrCollectionIds))
    simpa using hlen
  · rw [hok, hcm]
    have hlen := List.length_eq_length_filter_add (l := cmrCollectionIds)
      (fun u => decide (u ∈ esCollectionIds))
    have hcomm := length_filter_mem_comm (chain'_lt_nodup hces) (chain'_lt_nodup hccmr)
    rw [← hcomm] at hlen
    simpa using hlen

/-! ## Granule-file reconciliation (`reconciliationReportForGranuleFiles`)

The CMR `RelatedUrls` entries are processed by `Promise.all` over `map`: every
closure reads `granuleFiles` synchronously before any closure's deletion runs,
so each entry is classified against the initial file map and the effects
(okCount increments, `onlyInCmr` pushes, deletions) are applied afterwards in
entry order.  The embedding below computes that classification (`UrlAction`)
per entry and then applies the effects. -/

/-- A file record of the granule in the database (`granuleInDb.files[i]`);
an absent JS property is the empty string. -/
structure FileRec where
  fileName : String
  bucket : String
  key : String
  source : String
deriving Repr, DecidableEq

/-- One entry of `granuleInCmr.RelatedUrls`. -/
structure RelatedUrl where
  URL : String
  «Type» : String
deriving Repr, DecidableEq

/-- The CMR granule as the file reconciler sees it. -/
structure UmmGranule where
  GranuleUR : String
  ShortName : String
  Version : String
  RelatedUrls : List RelatedUrl
deriving Repr, DecidableEq

/-- The database granule as the file reconciler sees it. -/
structure DbGranule where
  granuleId : String
  files : List FileRec
deriving Repr, DecidableEq

/-- An entry of the file report's `onlyInCmr` (`{ URL, Type, GranuleUR }`). -/
structure CmrUrlEntry where
  URL : String
  «Type» : String
  GranuleUR : String
deriving Repr, DecidableEq

/-- An entry of the file report's `onlyInCumulus`
(`{ fileName, uri, granuleId }`). -/
structure CumulusFileEntry where
  fileName : String
  uri : String
  granuleId : String
deriving Repr, DecidableEq

/-- The per-granule file sub-report. -/
structure FileReport where
  okCount : Nat
  onlyInCumulus : List CumulusFileEntry
  onlyInCmr : List CmrUrlEntry
deriving Repr, DecidableEq

/-- Modelled from the spec: `BucketsConfig` of `@cumulus/common` (not among the
given sources) is the BucketVisibility mapping of §3 — bucket name to
visibility type.  `key(bucket)` is truthy exactly when the bucket appears in
the mapping, and `type(bucket)` is its visibility. -/
abbrev BucketsConfigModel := List (String × String)

/-- Truthiness of `bucketsConfig.key(bucket)`. -/
def bucketsConfigKey (bucketsConfig : BucketsConfigModel) (bucket : String) : Bool :=
  (bucketsConfig.find? (fun p => p.1 = bucket)).isSome

/-- Value of `bucketsConfig.type(bucket)`. -/
def bucketsConfigType (bucketsConfig : BucketsConfigModel) (bucket : String) : Option String :=
  (bucketsConfig.find? (fun p => p.1 = bucket)).map (fun p => p.2)

theorem bucketsConfigKey_of_type {bucketsConfig : BucketsConfigModel}
    {bucket t : String} (h : bucketsConfigType bucketsConfig bucket = some t) :
    bucketsConfigKey bucketsConfig bucket = true := by
  unfold bucketsConfigType at h
  unfold bucketsConfigKey
  cases hf : bucketsConfig.find? (fun p => p.1 = bucket) with
  | none => rw [hf] at h; simp at h
  | some p => simp

/-- URL types for downloading granule files. -/
def cmrGetDataTypes : List String := ["GET DATA", "GET RELATED VISUALIZATION"]

/-- URL types for related data such as documents. -/
def cmrRelatedDataTypes : List String := ["VIEW RELATED INFORMATION"]

/-- Embeds `relatedUrl.URL.split('/').pop()`: the suffix after the last `/`
(the whole string when there is no `/`, the empty string after a trailing
`/`), computed directly on the character list. -/
def urlFileName (url : String) : String :=
  String.mk (url.toList.foldl (fun acc c => if c = '/' then [] else acc ++ [c]) [])

/-- One step of lodash `keyBy(files, 'fileName')` read back with
`Object.values`: a later file with the same name overwrites in place, a new
name is appended. -/
def keyByInsert (granuleFiles : List FileRec) (f : FileRec) : List FileRec :=
  if granuleFiles.any (fun g => g.fileName = f.fileName) then
    granuleFiles.map (fun g => if g.fileName = f.fileName then f else g)
  else granuleFiles ++ [f]

/-- Embeds `keyBy(granuleInDb.files, 'fileName')` as the list of its values in
key insertion order. -/
def keyByFileName (files : List FileRec) : List FileRec :=
  files.foldl keyByInsert []

/-- Embeds the lookup `granuleFiles[urlFileName]`. -/
def findGranuleFile (granuleFiles : List FileRec) (fileName : String) : Option FileRec :=
  granuleFiles.find? (fun f => f.fileName = fileName)

/-- What one `RelatedUrls` entry does: a match counting toward `okCount` (and
removing the file), a push onto `onlyInCmr` (removing the file when it was
found in a configured bucket), a bare removal (related-information entry whose
candidate URLs did not match), or nothing. -/
inductive UrlAction where
  | okMatch (fileName : String)
  | cmrOnly (entry : CmrUrlEntry) (removed : Option String)
  | removeOnly (fileName : String)
  | skip
deriving Repr, DecidableEq

/-- Embeds the two `constructOnlineAccessUrl` candidate comparisons:
`distributionAccessUrl && relatedUrl.URL === distributionAccessUrl.URL`, then
the same for the `s3` form.  `construct mode file` is the external
URL-construction policy (a pure collaborator per §6), returning the candidate
URL or nothing. -/
def urlMatches (construct : String → FileRec → Option String)
    (file : FileRec) (relatedUrl : RelatedUrl) : Bool :=
  (match construct ("distribution") file with
   | some accessUrl => relatedUrl.URL = accessUrl
   | none => false)
  || (match construct ("s3") file with
   | some accessUrl => relatedUrl.URL = accessUrl
   | none => false)

/-- Classification of one `RelatedUrls` entry against the initial granule file
map, mirroring the branch structure of the source loop body. -/
def classifyRelatedUrl (construct : String → FileRec → Option String)
    (bucketsConfig : BucketsConfigModel) (granuleFiles : List FileRec)
    (granuleUR : String) (relatedUrl : RelatedUrl) : UrlAction :=
  if cmrGetDataTypes.contains relatedUrl.«Type»
      || cmrRelatedDataTypes.contains relatedUrl.«Type» then
    -- the JS binding `const urlFileName = relatedUrl.URL.split('/').pop()`
    -- is inlined as `urlFileName relatedUrl.URL` below
    match findGranuleFile granuleFiles (urlFileName relatedUrl.URL) with
    | some file =>
      if bucketsConfigKey bucketsConfig file.bucket then
        if urlMatches construct file relatedUrl then
          .okMatch (urlFileName relatedUrl.URL)
        else if cmrGetDataTypes.contains relatedUrl.«Type» then
          -- ignore any URL which is not for getting data
          .cmrOnly ⟨relatedUrl.URL, relatedUrl.«Type», granuleUR⟩ (some (urlFileName relatedUrl.URL))
        else
          .removeOnly (urlFileName relatedUrl.URL)
      else if cmrGetDataTypes.contains relatedUrl.«Type» then
        -- no matching database file, only in CMR
        .cmrOnly ⟨relatedUrl.URL, relatedUrl.«Type», granuleUR⟩ none
      else .skip
    | none =>
      if cmrGetDataTypes.contains relatedUrl.«Type» then
        .cmrOnly ⟨relatedUrl.URL, relatedUrl.«Type», granuleUR⟩ none
      else .skip
  else .skip

/-- The classifications of all `RelatedUrls` entries, in order. -/
def urlActions (construct : String → FileRec → Option String)
    (bucketsConfig : BucketsConfigModel) (granuleInDb : DbGranule)
    (granuleInCmr : UmmGranule) : List UrlAction :=
  granuleInCmr.RelatedUrls.map
    (classifyRelatedUrl construct bucketsConfig (keyByFileName granuleInDb.files)
      granuleInCmr.GranuleUR)

/-- The file name an action deletes from the map, if any. -/
def actionRemoved : UrlAction → Option String
  | .okMatch n => some n
  | .cmrOnly _ r => r
  | .removeOnly n => some n
  | .skip => none

/-- The `onlyInCmr` entry an action pushes, if any. -/
def actionCmrEntry : UrlAction → Option CmrUrlEntry
  | .cmrOnly e _ => some e
  | _ => none

/-- Whether the action increments `okCount`. -/
def actionOk : UrlAction → Bool
  | .okMatch _ => true
  | _ => false

/-- All file names deleted during URL processing. -/
def removedFileNames (actions : List UrlAction) : List String :=
  actions.filterMap actionRemoved

/-- The granule files still in the map after all URL entries are processed
(the `Object.keys(granuleFiles)` loop input), in insertion order. -/
def granuleFilesRemaining (construct : String → FileRec → Option String)
    (bucketsConfig : BucketsConfigModel) (granuleInDb : DbGranule)
    (granuleInCmr : UmmGranule) : List FileRec :=
  (keyByFileName granuleInDb.files).filter
    (fun f => !(removedFileNames
      (urlActions construct bucketsConfig granuleInDb granuleInCmr)).contains f.fileName)

/-- Embeds `bucketsConfig.key(bucket) && bucketsConfig.type(bucket) === 'private'`. -/
def isPrivateFile (bucketsConfig : BucketsConfigModel) (f : FileRec) : Bool :=
  bucketsConfigKey bucketsConfig f.bucket
    && decide (bucketsConfigType bucketsConfig f.bucket = some ("private"))

/-- Embeds the `uri` of an `onlyInCumulus` entry: `buildS3Uri(bucket, key)`
when both are truthy, the `source` property otherwise. -/
def cumulusFileUri (f : FileRec) : String :=
  if !f.bucket.isEmpty && !f.key.isEmpty then buildS3Uri f.bucket f.key else f.source

/-- Embedding of `reconciliationReportForGranuleFiles`: classify every
`RelatedUrls` entry against the initial file map, then account for the
remaining files — a private-bucket file counts as ok, any other goes to
`onlyInCumulus`. -/
def reconciliationReportForGranuleFiles (construct : String → FileRec → Option String)
    (bucketsConfig : BucketsConfigModel) (granuleInDb : DbGranule)
    (granuleInCmr : UmmGranule) : FileReport :=
  let actions := urlActions construct bucketsConfig granuleInDb granuleInCmr
  let remaining := granuleFilesRemaining construct bucketsConfig granuleInDb granuleInCmr
  { okCount := actions.countP actionOk
      + (remaining.filter (isPrivateFile bucketsConfig)).length
    onlyInCumulus := (remaining.filter (fun f => !isPrivateFile bucketsConfig f)).map
      (fun f => ⟨f.fileName, cumulusFileUri f, granuleInDb.granuleId⟩)
    onlyInCmr := actions.filterMap actionCmrEntry }

theorem length_filterMap_eq_countP {α β : Type} (f : α → Option β) (l : List α) :
    (l.filterMap f).length = l.countP (fun a => (f a).isSome) := by
  induction l with
  | nil => rfl
  | cons a l ih =>
    rw [List.filterMap_cons, List.countP_cons]
    cases hf : f a with
    | none => simp [hf, ih]
    | some b => simp [hf, ih]

theorem length_filter_split {α : Type} (l : List α) (p q : α → Bool) :
    (l.filter p).length =
      (l.filter (fun a => p a && q a)).length +
      (l.filter (fun a => p a && !q a)).length := by
  induction l with
  | nil => rfl
  | cons a l ih =>
    simp only [List.filter_cons]
    cases hp : p a <;> cases hq : q a <;> simp [hp, hq, ih] <;> omega

theorem classifyRelatedUrl_download (construct : String → FileRec → Option String)
    (bucketsConfig : BucketsConfigModel) (granuleFiles : List FileRec)
    (granuleUR : String) (relatedUrl : RelatedUrl)
    (h : cmrGetDataTypes.contains relatedUrl.«Type» = true) :
    (actionOk (classifyRelatedUrl construct bucketsConfig granuleFiles granuleUR relatedUrl) = true
      ∧ actionCmrEntry (classifyRelatedUrl construct bucketsConfig granuleFiles granuleUR relatedUrl) = none)
    ∨ (actionOk (classifyRelatedUrl construct bucketsConfig granuleFiles granuleUR relatedUrl) = false
      ∧ actionCmrEntry (classifyRelatedUrl construct bucketsConfig granuleFiles granuleUR relatedUrl) =
          some ⟨relatedUrl.URL, relatedUrl.«Type», granuleUR⟩) := by
  unfold classifyRelatedUrl
  simp only [h, Bool.true_or, if_true]
  cases hfind : findGranuleFile granuleFiles (urlFileName relatedUrl.URL) with
  | none => right; simp [h, actionOk, actionCmrEntry]
  | some file =>
    by_cases hkey : bucketsConfigKey bucketsConfig file.bucket = true
    · simp only [hkey, if_true]
      by_cases hmatch : urlMatches construct file relatedUrl = true
      · left; simp [hmatch, actionOk, actionCmrEntry]
      · right
        simp only [Bool.not_eq_true] at hmatch
        simp [hmatch, h, actionOk, actionCmrEntry]
    · simp only [Bool.not_eq_true] at hkey
      right
      simp [hkey, h, actionOk, actionCmrEntry]

theorem classifyRelatedUrl_cmrEntry_inv (construct : String → FileRec → Option String)
    (bucketsConfig : BucketsConfigModel) (granuleFiles : List FileRec)
    (granuleUR : String) (relatedUrl : RelatedUrl) (e : CmrUrlEntry)
    (h : actionCmrEntry (classifyRelatedUrl construct bucketsConfig granuleFiles
      granuleUR relatedUrl) = some e) :
    cmrGetDataTypes.contains relatedUrl.«Type» = true
      ∧ e = ⟨relatedUrl.URL, relatedUrl.«Type», granuleUR⟩ := by
  unfold classifyRelatedUrl at h
  repeat' split at h
  all_goals simp_all [actionCmrEntry]

theorem classifyRelatedUrl_removed (construct : String → FileRec → Option String)
    (bucketsConfig : BucketsConfigModel) (granuleFiles : List FileRec)
    (granuleUR : String) (relatedUrl : RelatedUrl) (n : String)
    (h : actionRemoved (classifyRelatedUrl construct bucketsConfig granuleFiles
      granuleUR relatedUrl) = some n) :
    n = urlFileName relatedUrl.URL := by
  unfold classifyRelatedUrl at h
  repeat' split at h
  all_goals simp_all [actionRemoved]

theorem reconciliationReportForGranuleFiles_okCount
    (construct : String → FileRec → Option String) (bucketsConfig : BucketsConfigModel)
    (granuleInDb : DbGranule) (granuleInCmr : UmmGranule) :
    (reconciliationReportForGranuleFiles construct bucketsConfig granuleInDb
      granuleInCmr).okCount =
      (urlActions construct bucketsConfig granuleInDb granuleInCmr).countP actionOk
      + ((granuleFilesRemaining construct bucketsConfig granuleInDb granuleInCmr).filter
          (isPrivateFile bucketsConfig)).length := rfl

theorem reconciliationReportForGranuleFiles_onlyInCumulus
    (construct : String → FileRec → Option String) (bucketsConfig : BucketsConfigModel)
    (granuleInDb : DbGranule) (granuleInCmr : UmmGranule) :
    (reconciliationReportForGranuleFiles construct bucketsConfig granuleInDb
      granuleInCmr).onlyInCumulus =
      ((granuleFilesRemaining construct bucketsConfig granuleInDb granuleInCmr).filter
        (fun f => !isPrivateFile bucketsConfig f)).map
        (fun f => ⟨f.fileName, cumulusFileUri f, granuleInDb.granuleId⟩) := rfl

theorem reconciliationReportForGranuleFiles_onlyInCmr
    (construct : String → FileRec → Option String) (bucketsConfig : BucketsConfigModel)
    (granuleInDb : DbGranule) (granuleInCmr : UmmGranule) :
    (reconciliationReportForGranuleFiles construct bucketsConfig granuleInDb
      granuleInCmr).onlyInCmr =
      (urlActions construct bucketsConfig granuleInDb granuleInCmr).filterMap
        actionCmrEntry := rfl

theorem length_eq_filter_add_filter_not {α : Type} (l : List α) (p : α → Bool) :
    l.length = (l.filter p).length + (l.filter (fun a => !p a)).length := by
  induction l with
  | nil => rfl
  | cons a l ih =>
    simp only [List.filter_cons]
    cases hp : p a <;> simp [hp, ih] <;> omega

theorem classify_push_iff (construct : String → FileRec → Option String)
    (bucketsConfig : BucketsConfigModel) (granuleFiles : List FileRec)
    (granuleUR : String) (u : RelatedUrl) :
    (cmrGetDataTypes.contains u.«Type»
      && !actionOk (classifyRelatedUrl construct bucketsConfig granuleFiles granuleUR u)) =
    (actionCmrEntry (classifyRelatedUrl construct bucketsConfig granuleFiles granuleUR u)).isSome := by
  by_cases hdl : cmrGetDataTypes.contains u.«Type» = true
  · rcases classifyRelatedUrl_download construct bucketsConfig granuleFiles granuleUR u hdl with
      ⟨hok, hnone⟩ | ⟨hok, hsome⟩
    · simp [hdl, hok, hnone]
    · simp [hok, hsome]
      simpa using hdl
  · simp only [Bool.not_eq_true] at hdl
    have hdl' : u.«Type» ∉ cmrGetDataTypes := by simpa using hdl
    cases hce : actionCmrEntry (classifyRelatedUrl construct bucketsConfig granuleFiles
        granuleUR u) with
    | none => simp [hdl', hce]
    | some e =>
      have := (classifyRelatedUrl_cmrEntry_inv construct bucketsConfig granuleFiles
        granuleUR u e hce).1
      rw [this] at hdl
      simp at hdl

/-- Accounting of the download-role catalog URL entries: every `GET DATA` /
`GET RELATED VISUALIZATION` entry either matches (action `okMatch`, counted in
`okCount`) or is pushed onto `onlyInCmr`, exactly once. -/
theorem downloadUrls_accounting (construct : String → FileRec → Option String)
    (bucketsConfig : BucketsConfigModel) (granuleInDb : DbGranule)
    (granuleInCmr : UmmGranule) :
    (granuleInCmr.RelatedUrls.filter (fun u => cmrGetDataTypes.contains u.«Type»)).length =
      (granuleInCmr.RelatedUrls.filter (fun u => cmrGetDataTypes.contains u.«Type»
        && actionOk (classifyRelatedUrl construct bucketsConfig
          (keyByFileName granuleInDb.files) granuleInCmr.GranuleUR u))).length
      + (reconciliationReportForGranuleFiles construct bucketsConfig granuleInDb
          granuleInCmr).onlyInCmr.length := by
  rw [reconciliationReportForGranuleFiles_onlyInCmr,
    length_filterMap_eq_countP, urlActions, List.countP_map,
    List.countP_eq_length_filter]
  rw [length_filter_split granuleInCmr.RelatedUrls
    (fun u => cmrGetDataTypes.contains u.«Type»)
    (fun u => actionOk (classifyRelatedUrl construct bucketsConfig
      (keyByFileName granuleInDb.files) granuleInCmr.GranuleUR u))]
  congr 1
  apply congrArg
  apply List.filter_congr
  intro u _
  simp only [Function.comp_apply]
  exact classify_push_iff construct bucketsConfig (keyByFileName granuleInDb.files)
    granuleInCmr.GranuleUR u

/-- Accounting of the local granule files: every entry of the initial file map
is either removed by some URL entry, counted as a private remaining file in
`okCount`, or listed in `onlyInCumulus`. -/
theorem granuleFiles_accounting (construct : String → FileRec → Option String)
    (bucketsConfig : BucketsConfigModel) (granuleInDb : DbGranule)
    (granuleInCmr : UmmGranule) :
    (keyByFileName granuleInDb.files).length =
      ((keyByFileName granuleInDb.files).filter (fun f =>
        (removedFileNames (urlActions construct bucketsConfig granuleInDb
          granuleInCmr)).contains f.fileName)).length
      + ((granuleFilesRemaining construct bucketsConfig granuleInDb granuleInCmr).filter
          (isPrivateFile bucketsConfig)).length
      + (reconciliationReportForGranuleFiles construct bucketsConfig granuleInDb
          granuleInCmr).onlyInCumulus.length := by
  have h1 := length_eq_filter_add_filter_not (keyByFileName granuleInDb.files)
    (fun f => (removedFileNames (urlActions construct bucketsConfig granuleInDb
      granuleInCmr)).contains f.fileName)
  have h2 := length_eq_filter_add_filter_not
    (granuleFilesRemaining construct bucketsConfig granuleInDb granuleInCmr)
    (isPrivateFile bucketsConfig)
  have h3 : (reconciliationReportForGranuleFiles construct bucketsConfig granuleInDb
      granuleInCmr).onlyInCumulus.length =
      ((granuleFilesRemaining construct bucketsConfig granuleInDb granuleInCmr).filter
        (fun f => !isPrivateFile bucketsConfig f)).length := by
    rw [reconciliationReportForGranuleFiles_onlyInCumulus, List.length_map]
  have h4 : granuleFilesRemaining construct bucketsConfig granuleInDb granuleInCmr =
      (keyByFileName granuleInDb.files).filter
      (fun f => !(removedFileNames (urlActions construct bucketsConfig granuleInDb
        granuleInCmr)).contains f.fileName) := rfl
  rw [h3]
  rw [← h4] at h1
  omega

theorem keyByInsert_names (granuleFiles : List FileRec) (f : FileRec) :
    (keyByInsert granuleFiles f).map (fun g => g.fileName) =
      if granuleFiles.any (fun g => g.fileName = f.fileName) then
        granuleFiles.map (fun g => g.fileName)
      else granuleFiles.map (fun g => g.fileName) ++ [f.fileName] := by
  unfold keyByInsert
  split
  · rw [List.map_map]
    apply List.map_congr_left
    intro g _
    by_cases h : g.fileName = f.fileName <;> simp [Function.comp, h]
  · simp

theorem keyByFileName_names_nodup (files : List FileRec) :
    ((keyByFileName files).map (fun g => g.fileName)).Nodup := by
  suffices h : ∀ acc : List FileRec, (acc.map (fun g => g.fileName)).Nodup →
      ((files.foldl keyByInsert acc).map (fun g => g.fileName)).Nodup by
    exact h [] (by simp)
  induction files with
  | nil =>
    intro acc h
    simpa using h
  | cons f fs ih =>
    intro acc h
    rw [List.foldl_cons]
    apply ih
    rw [keyByInsert_names]
    split
    case isTrue => exact h
    case isFalse hany =>
      have hnm : f.fileName ∉ acc.map (fun g => g.fileName) := by
        intro hmem
        apply hany
        rw [List.any_eq_true]
        obtain ⟨g, hg, he⟩ := List.mem_map.mp hmem
        exact ⟨g, hg, by simp [he]⟩
      simp [List.nodup_append, h, hnm]

theorem mem_removed_imp (construct : String → FileRec → Option String)
    (bucketsConfig : BucketsConfigModel) (granuleInDb : DbGranule)
    (granuleInCmr : UmmGranule) (n : String)
    (h : n ∈ removedFileNames (urlActions construct bucketsConfig granuleInDb granuleInCmr)) :
    ∃ u ∈ granuleInCmr.RelatedUrls, urlFileName u.URL = n := by
  rw [removedFileNames, urlActions, List.filterMap_map] at h
  obtain ⟨u, hu, hr⟩ := List.mem_filterMap.mp h
  exact ⟨u, hu, (classifyRelatedUrl_removed construct bucketsConfig
    (keyByFileName granuleInDb.files) granuleInCmr.GranuleUR u n hr).symm⟩

/-! ## Granule-level reconciliation (`reconciliationReportForGranules`) -/

/-- An entry of the granule report's `onlyInCumulus`
(`{ granuleId, collectionId }`). -/
structure GranuleDbEntry where
  granuleId : String
  collectionId : String
deriving Repr, DecidableEq

/-- An entry of the granule report's `onlyInCmr`
(`{ GranuleUR, ShortName, Version }`). -/
structure GranuleCmrEntry where
  GranuleUR : String
  ShortName : String
  Version : String
deriving Repr, DecidableEq

/-- The granule-level sub-report. -/
structure GranulesReport where
  okCount : Nat
  onlyInCumulus : List GranuleDbEntry
  onlyInCmr : List GranuleCmrEntry
deriving Repr, DecidableEq

/-- The `while (await esGranulesIterator.peek())` drain: remaining database
granules are pushed onto `onlyInCumulus`. -/
def granulesDrainDb (collectionId : String) (esQ : List (List DbGranule))
    (onlyInCumulus : List GranuleDbEntry) : List GranuleDbEntry :=
  match he : pagesPeek esQ with
  | some dbItem =>
    granulesDrainDb collectionId (pagesShift esQ)
      (onlyInCumulus ++ [⟨dbItem.granuleId, collectionId⟩])
  | none => onlyInCumulus
termination_by esQ.flatten.length
decreasing_by
  have := pagesShift_length_lt he
  omega

/-- The `while (await cmrGranulesIterator.peek())` drain guarded by `!oneWay`:
remaining CMR granules are pushed onto `onlyInCmr`.  Note the source reads
`ShortName`/`Version` from the stale `nextCmrItem` binding (the last item
peeked by the main loop), not from the drained item — `stale` is that
binding. -/
def granulesDrainCmr (stale : UmmGranule) (cmrQ : List (List UmmGranule))
    (onlyInCmr : List GranuleCmrEntry) : List GranuleCmrEntry :=
  match hc : pagesPeek cmrQ with
  | some cmrItem =>
    granulesDrainCmr stale (pagesShift cmrQ)
      (onlyInCmr ++ [⟨cmrItem.GranuleUR, stale.ShortName, stale.Version⟩])
  | none => onlyInCmr
termination_by cmrQ.flatten.length
decreasing_by
  have := pagesShift_length_lt hc
  omega

/-- The main `while (nextDbItem && nextCmrItem)` merge loop of
`reconciliationReportForGranules` plus its drains: granules are compared by
`granuleId` against `GranuleUR`; on a match the per-granule file report is
computed inline and folded into the running file report. -/
def granulesCompareLoop (oneWay : Bool) (collectionId : String)
    (construct : String → FileRec → Option String) (bucketsConfig : BucketsConfigModel)
    (esQ : List (List DbGranule)) (cmrQ : List (List UmmGranule))
    (granulesReport : GranulesReport) (filesReport : FileReport) :
    GranulesReport × FileReport :=
  match he : pagesPeek esQ, hc : pagesPeek cmrQ with
  | some nextDbItem, some nextCmrItem =>
    if nextDbItem.granuleId < nextCmrItem.GranuleUR then
      -- found an item that is only in Cumulus database and not in CMR
      granulesCompareLoop oneWay collectionId construct bucketsConfig
        (pagesShift esQ) cmrQ
        { granulesReport with onlyInCumulus := granulesReport.onlyInCumulus ++
            [⟨nextDbItem.granuleId, collectionId⟩] }
        filesReport
    else if nextCmrItem.GranuleUR < nextDbItem.granuleId then
      -- found an item that is only in CMR and not in Cumulus database
      granulesCompareLoop oneWay collectionId construct bucketsConfig
        esQ (pagesShift cmrQ)
        { granulesReport with onlyInCmr := if oneWay then granulesReport.onlyInCmr
            else granulesReport.onlyInCmr ++
              [⟨nextCmrItem.GranuleUR, nextCmrItem.ShortName, nextCmrItem.Version⟩] }
        filesReport
    else
      -- found an item that is in both CMR and Cumulus database:
      -- compare the files now to avoid keeping the granule data in memory
      let fileReport := reconciliationReportForGranuleFiles construct bucketsConfig
        ⟨nextDbItem.granuleId, nextDbItem.files⟩ nextCmrItem
      granulesCompareLoop oneWay collectionId construct bucketsConfig
        (pagesShift esQ) (pagesShift cmrQ)
        { granulesReport with okCount := granulesReport.okCount + 1 }
        { filesReport with
          okCount := filesReport.okCount + fileReport.okCount
          onlyInCumulus := filesReport.onlyInCumulus ++ fileReport.onlyInCumulus
          onlyInCmr := filesReport.onlyInCmr ++ fileReport.onlyInCmr }
  | _, _ =>
    ({ granulesReport with
        onlyInCumulus := granulesDrainDb collectionId esQ granulesReport.onlyInCumulus
        onlyInCmr :=
          if oneWay then granulesReport.onlyInCmr
          else
            match pagesPeek cmrQ with
            | some nextCmrItem =>
              granulesDrainCmr nextCmrItem cmrQ granulesReport.onlyInCmr
            | none => granulesReport.onlyInCmr },
      filesReport)
termination_by esQ.flatten.length + cmrQ.flatten.length
decreasing_by
  · have := pagesShift_length_lt he
    omega
  · have := pagesShift_length_lt hc
    omega
  · have h1 := pagesShift_length_lt he
    have h2 := pagesShift_length_lt hc
    omega

/-- Embedding of `reconciliationReportForGranules` for one collection: the
CMR and Elasticsearch granule queues are the paginated sources; the one-way
flag is derived from the report parameters as in the source. -/
def reconciliationReportForGranules (recReportParams : RecReportParams)
    (collectionId : String) (construct : String → FileRec → Option String)
    (bucketsConfig : BucketsConfigModel)
    (esQ : List (List DbGranule)) (cmrQ : List (List UmmGranule)) :
    GranulesReport × FileReport :=
  granulesCompareLoop (isOneWayReport recReportParams) collectionId construct
    bucketsConfig esQ cmrQ ⟨0, [], []⟩ ⟨0, [], []⟩

theorem granulesCompareLoop_exit {oneWay : Bool} {collectionId : String}
    {construct : String → FileRec → Option String} {bucketsConfig : BucketsConfigModel}
    {esQ : List (List DbGranule)} {cmrQ : List (List UmmGranule)}
    {granulesReport : GranulesReport} {filesReport : FileReport}
    (h : pagesPeek esQ = none ∨ pagesPeek cmrQ = none) :
    granulesCompareLoop oneWay collectionId construct bucketsConfig esQ cmrQ
      granulesReport filesReport =
    ({ granulesReport with
        onlyInCumulus := granulesDrainDb collectionId esQ granulesReport.onlyInCumulus
        onlyInCmr :=
          if oneWay then granulesReport.onlyInCmr
          else
            match pagesPeek cmrQ with
            | some nextCmrItem =>
              granulesDrainCmr nextCmrItem cmrQ granulesReport.onlyInCmr
            | none => granulesReport.onlyInCmr },
      filesReport) := by
  rw [granulesCompareLoop.eq_def]
  rcases h with h | h <;> split <;> simp_all

theorem granulesCompareLoop_step {oneWay : Bool} {collectionId : String}
    {construct : String → FileRec → Option String} {bucketsConfig : BucketsConfigModel}
    {esQ : List (List DbGranule)} {cmrQ : List (List UmmGranule)}
    {granulesReport : GranulesReport} {filesReport : FileReport}
    {nextDbItem : DbGranule} {nextCmrItem : UmmGranule}
    (he : pagesPeek esQ = some nextDbItem) (hc : pagesPeek cmrQ = some nextCmrItem) :
    granulesCompareLoop oneWay collectionId construct bucketsConfig esQ cmrQ
      granulesReport filesReport =
    (if nextDbItem.granuleId < nextCmrItem.GranuleUR then
      granulesCompareLoop oneWay collectionId construct bucketsConfig
        (pagesShift esQ) cmrQ
        { granulesReport with onlyInCumulus := granulesReport.onlyInCumulus ++
            [⟨nextDbItem.granuleId, collectionId⟩] }
        filesReport
    else if nextCmrItem.GranuleUR < nextDbItem.granuleId then
      granulesCompareLoop oneWay collectionId construct bucketsConfig
        esQ (pagesShift cmrQ)
        { granulesReport with onlyInCmr := if oneWay then granulesReport.onlyInCmr
            else granulesReport.onlyInCmr ++
              [⟨nextCmrItem.GranuleUR, nextCmrItem.ShortName, nextCmrItem.Version⟩] }
        filesReport
    else
      let fileReport := reconciliationReportForGranuleFiles construct bucketsConfig
        ⟨nextDbItem.granuleId, nextDbItem.files⟩ nextCmrItem
      granulesCompareLoop oneWay collectionId construct bucketsConfig
        (pagesShift esQ) (pagesShift cmrQ)
        { granulesReport with okCount := granulesReport.okCount + 1 }
        { filesReport with
          okCount := filesReport.okCount + fileReport.okCount
          onlyInCumulus := filesReport.onlyInCumulus ++ fileReport.onlyInCumulus
          onlyInCmr := filesReport.onlyInCmr ++ fileReport.onlyInCmr }) := by
  conv_lhs => rw [granulesCompareLoop.eq_def]
  split <;> simp_all

/-- Under one-way mode the granule comparison never extends `onlyInCmr`. -/
theorem granulesCompareLoop_oneWay (collectionId : String)
    (construct : String → FileRec → Option String) (bucketsConfig : BucketsConfigModel) :
    ∀ (esQ : List (List DbGranule)) (cmrQ : List (List UmmGranule))
      (granulesReport : GranulesReport) (filesReport : FileReport),
    (granulesCompareLoop true collectionId construct bucketsConfig esQ cmrQ
      granulesReport filesReport).1.onlyInCmr = granulesReport.onlyInCmr := by
  intro esQ cmrQ
  generalize hn : esQ.flatten.length + cmrQ.flatten.length = n
  induction n using Nat.strong_induction_on generalizing esQ cmrQ with
  | _ n ih =>
    intro granulesReport filesReport
    cases he : pagesPeek esQ with
    | none =>
      rw [granulesCompareLoop_exit (Or.inl he)]
      simp
    | some nextDbItem =>
      cases hc : pagesPeek cmrQ with
      | none =>
        rw [granulesCompareLoop_exit (Or.inr hc)]
        simp
      | some nextCmrItem =>
        have l1 := pagesShift_length_lt he
        have l2 := pagesShift_length_lt hc
        subst hn
        rw [granulesCompareLoop_step he hc]
        split
        · rw [ih ((pagesShift esQ).flatten.length + cmrQ.flatten.length) (by omega)
            (pagesShift esQ) cmrQ rfl]
        · split
          · rw [ih (esQ.flatten.length + (pagesShift cmrQ).flatten.length) (by omega)
              esQ (pagesShift cmrQ) rfl]
            simp
          · rw [ih ((pagesShift esQ).flatten.length + (pagesShift cmrQ).flatten.length)
              (by omega) (pagesShift esQ) (pagesShift cmrQ) rfl]

/-! ## Orchestration: `processRequest`, `createReconciliationReport`,
`normalizeEvent`, `isoTimestamp`, `handler` -/

/-- A JavaScript error value as the orchestrator sees it. -/
structure JsError where
  message : String
deriving Repr, DecidableEq

/-- The tracking record kept in the `ReconciliationReport` model
(`{ name, type, status, location }` plus the error written on failure). -/
structure TrackedRecord where
  name : String
  type : String
  status : String
  location : String
  error : Option (String × String)
deriving Repr, DecidableEq

/-- The persisted-store operations `processRequest` performs, in order:
creation of the tracking record, the comparison work, and the final update. -/
inductive TrackOp where
  | createRecord (record : TrackedRecord)
  | runComparisons
  | updateRecord (name : String) (status : String) (error : Option (String × String))
deriving Repr, DecidableEq

/-- The parameters `processRequest` reads.  `createStartTimeFmt` is the
formatted clock value (`moment.utc().format(...)`, an external effect). -/
structure ProcessParams where
  reportType : String
  reportName : Option String
  systemBucket : String
  stackName : String
  createStartTimeFmt : String
deriving Repr, DecidableEq

/-- Embeds `reportName || camelCase(reportType)Report-<timestamp>`; lodash
`camelCase` is an external pure collaborator, a parameter here. -/
def reconciliationReportName (camelCase : String → String)
    (params : ProcessParams) : String :=
  if truthyOptStr params.reportName then params.reportName.getD ("")
  else camelCase params.reportType ++ "Report-" ++ params.createStartTimeFmt

/-- Embeds the S3 key `<stackName>/reconciliation-reports/<name>.json`. -/
def reconciliationReportKey (params : ProcessParams)
    (reportRecordName : String) : String :=
  params.stackName ++ "/reconciliation-reports/" ++ reportRecordName ++ ".json"

/-- Embedding of `processRequest`: create the tracking record in `Pending`,
run the report creation (`createInternalReconciliationReport` for an
`Internal` report, `createReconciliationReport` otherwise — both abstracted
as their outcome), then update the record to `Generated`, or on any error to
`Failed` with the error message and cause (`errorify` is the external
serializer).  Returns the operation trace and the record returned to the
caller. -/
def processRequest (camelCase : String → String) (errorify : JsError → String)
    (internalResult inventoryResult : Except JsError Unit) (params : ProcessParams) :
    List TrackOp × TrackedRecord :=
  let reportRecordName := reconciliationReportName camelCase params
  let reportKey := reconciliationReportKey params reportRecordName
  let reportRecord : TrackedRecord :=
    { name := reportRecordName
      type := params.reportType
      status := "Pending"
      location := buildS3Uri params.systemBucket reportKey
      error := none }
  let result := if params.reportType = "Internal" then internalResult else inventoryResult
  match result with
  | .ok _ =>
    ([.createRecord reportRecord, .runComparisons,
      .updateRecord reportRecordName ("Generated") none],
     { reportRecord with status := "Generated" })
  | .error e =>
    ([.createRecord reportRecord, .runComparisons,
      .updateRecord reportRecordName ("Failed") (some (e.message, errorify e))],
     { reportRecord with status := "Failed", error := some (e.message, errorify e) })

/-- The header fields of the persisted report document. -/
structure ReportHeader where
  reportType : String
  createStartTime : String
  createEndTime : Option String
  status : String
deriving Repr, DecidableEq

/-- The `collectionsInCumulusCmr` section shape. -/
structure CollectionsSection where
  okCount : Nat
  onlyInCumulus : List String
  onlyInCmr : List String
deriving Repr, DecidableEq

/-- The `granulesInCumulusCmr` section shape. -/
structure GranulesSection where
  okCount : Nat
  onlyInCumulus : List GranuleDbEntry
  onlyInCmr : List GranuleCmrEntry
deriving Repr, DecidableEq

/-- The `filesInCumulusCmr` section shape. -/
structure FilesCmrSection where
  okCount : Nat
  onlyInCumulus : List CumulusFileEntry
  onlyInCmr : List CmrUrlEntry
deriving Repr, DecidableEq

/-- The persisted report document (the body of each S3 `putObject`). -/
structure ReportDocument where
  header : ReportHeader
  filesInCumulus : BucketReport
  collectionsInCumulusCmr : CollectionsSection
  granulesInCumulusCmr : GranulesSection
  filesInCumulusCmr : FilesCmrSection
deriving Repr, DecidableEq

/-- Modelled from the spec: `initialReportHeader` lives in
`packages/api/lib/reconciliationReport`, which is not among the given
sources.  Per §3 the report document is created in status `Pending` at
request time with its identity and start timestamp. -/
def initialReportHeader (reportType createStartTime : String) : ReportHeader :=
  { reportType := reportType
    createStartTime := createStartTime
    createEndTime := none
    status := "Pending" }

/-- The paginated sources for one data bucket. -/
structure BucketSource where
  name : String
  s3Pages : List (List S3Object)
  dynPages : List (List DynamoItem)
deriving Repr

/-- Embeds `report.filesInCumulus.okCountByGranule[granuleId] =
(currentGranuleCount || 0) + bucketGranuleCount`. -/
def addGranuleCount (m : List (String × Nat)) (g : String) (c : Nat) :
    List (String × Nat) :=
  match m.find? (fun p => p.1 = g) with
  | some _ => m.map (fun p => if p.1 = g then (p.1, p.2 + c) else p)
  | none => m ++ [(g, c)]

/-- Embeds the `bucketReports.forEach` aggregation step for one bucket
report. -/
def accumulateBucketReport (filesInCumulus : BucketReport)
    (bucketReport : BucketReport) : BucketReport :=
  { okCount := filesInCumulus.okCount + bucketReport.okCount
    onlyInS3 := filesInCumulus.onlyInS3 ++ bucketReport.onlyInS3
    onlyInDynamoDb := filesInCumulus.onlyInDynamoDb ++ bucketReport.onlyInDynamoDb
    okCountByGranule := bucketReport.okCountByGranule.foldl
      (fun m p => addGranuleCount m p.1 p.2) filesInCumulus.okCountByGranule }

/-- The aggregate `reconciliationReportForCumulusCMR` produces (its inputs are
remote fetches, so the aggregate is a parameter of the report writer). -/
structure CumulusCmrReports where
  collectionsInCumulusCmr : CollectionsSection
  granulesInCumulusCmr : GranulesSection
  filesInCumulusCmr : FilesCmrSection
deriving Repr, DecidableEq

/-- Embedding of `createReconciliationReport`: the initial checkpoint document
written to S3 (zeroed sections, header from `initialReportHeader`), then the
bucket aggregation and the CMR comparison, and the final document written with
`createEndTime` set and `status = 'SUCCESS'`.  Returns the two `putObject`
bodies in write order. -/
def createReconciliationReport (reportType createStartTime : String)
    (bucketSources : List BucketSource) (cumulusCmrReport : CumulusCmrReports)
    (createEndTime : String) : List ReportDocument :=
  let report0 : ReportDocument :=
    { header := initialReportHeader reportType createStartTime
      filesInCumulus := ⟨0, [], [], []⟩
      collectionsInCumulusCmr := ⟨0, [], []⟩
      granulesInCumulusCmr := ⟨0, [], []⟩
      filesInCumulusCmr := ⟨0, [], []⟩ }
  let bucketReports := bucketSources.map
    (fun src => createReconciliationReportForBucket src.name src.s3Pages src.dynPages)
  let filesInCumulus := bucketReports.foldl accumulateBucketReport report0.filesInCumulus
  let finalReport : ReportDocument :=
    { header := { report0.header with createEndTime := some createEndTime, status := "SUCCESS" }
      filesInCumulus := filesInCumulus
      collectionsInCumulusCmr := cumulusCmrReport.collectionsInCumulusCmr
      granulesInCumulusCmr := cumulusCmrReport.granulesInCumulusCmr
      filesInCumulusCmr := cumulusCmrReport.filesInCumulusCmr }
  [report0, finalReport]

/-- The one error type `normalizeEvent` and `isoTimestamp` throw. -/
structure TypeErrorModel where
  message : String
deriving Repr, DecidableEq

/-- The `collectionId` input may be a string or an array of strings. -/
inductive CollectionIdInput where
  | str (s : String)
  | arr (ids : List String)
deriving Repr, DecidableEq

/-- The lambda input event, before normalization.  Absent keys are `none`. -/
structure ReportEvent where
  systemBucket : Option String
  stackName : Option String
  startTimestamp : Option String
  endTimestamp : Option String
  reportType : Option String
  reportName : Option String
  collectionIds : Option (List String)
  collectionId : Option CollectionIdInput
deriving Repr, DecidableEq

/-- The process environment fallbacks `normalizeEvent` reads. -/
structure NormalizeEnv where
  system_bucket : Option String
  stackName : Option String
deriving Repr, DecidableEq

/-- The normalized parameters `normalizeEvent` returns. -/
structure NormalizedEvent where
  systemBucket : Option String
  stackName : Option String
  startTimestamp : Option String
  endTimestamp : Option String
  reportType : String
  reportName : Option String
  collectionIds : Option (List String)
  collectionId : Option CollectionIdInput
deriving Repr, DecidableEq

/-- Embedding of `isoTimestamp(dateable)`: a falsy input yields `undefined`;
otherwise the input is parsed by `new Date` (the host's date parser,
abstracted as `parseDate`, returning the ISO rendering or nothing) and an
unparsable value throws a `TypeError`. -/
def isoTimestamp (parseDate : String → Option String) (dateable : Option String) :
    Except TypeErrorModel (Option String) :=
  if truthyOptStr dateable then
    match parseDate (dateable.getD ("")) with
    | some iso => .ok (some iso)
    | none => .error ⟨dateable.getD ("") ++ " is not a valid input for new Date()."⟩
  else .ok none

/-- JavaScript truthiness of the `collectionId` input (an array is always
truthy, a string is truthy when non-empty). -/
def truthyCollectionId : Option CollectionIdInput → Bool
  | none => false
  | some (.str s) => !s.isEmpty
  | some (.arr _) => true

/-- Embedding of `normalizeEvent(event)`: environment fallbacks, timestamp
normalization (which can throw), report-type defaulting, the rejection of a
caller-supplied `collectionIds`, and the `collectionId` normalization.
`removeNilProperties` only drops absent keys and is the identity of this
representation. -/
def normalizeEvent (parseDate : String → Option String) (env : NormalizeEnv)
    (event : ReportEvent) : Except TypeErrorModel NormalizedEvent := do
  let systemBucket := if truthyOptStr event.systemBucket then event.systemBucket
    else env.system_bucket
  let stackName := if truthyOptStr event.stackName then event.stackName else env.stackName
  let startTimestamp ← isoTimestamp parseDate event.startTimestamp
  let endTimestamp ← isoTimestamp parseDate event.endTimestamp
  let reportType0 := if truthyOptStr event.reportType then event.reportType.getD ("")
    else "Inventory"
  -- `reportType.toLowerCase()`, computed directly on the character list
  let reportType := if String.mk (reportType0.toList.map Char.toLower) = "granulenotfound"
    then "Granule Not Found" else reportType0
  if event.collectionIds.isSome then
    throw ⟨"`collectionIds` is not a valid input key for a reconciliation report, use `collectionId` instead."⟩
  else
    let base : NormalizedEvent :=
      { systemBucket := systemBucket
        stackName := stackName
        startTimestamp := startTimestamp
        endTimestamp := endTimestamp
        reportType := reportType
        reportName := event.reportName
        collectionIds := none
        collectionId := none }
    if truthyCollectionId event.collectionId then
      if reportType = "Internal" then
        match event.collectionId with
        | some (.str s) =>
          -- include both collectionIds and collectionId for Internal reports
          pure { base with collectionIds := some [s], collectionId := event.collectionId }
        | _ =>
          -- `${JSON.stringify(collectionId)} is not valid input ...`
          throw ⟨"collectionId is not valid input for an 'Internal' report."⟩
      else
        let collectionIds := match event.collectionId with
          | some (.str s) => [s]
          | some (.arr ids) => ids
          | none => []
        pure { base with collectionIds := some collectionIds }
    else
      pure base

/-- Embedding of the lambda `handler`: normalize the event (input errors are
fatal before any work), then run `processRequest`. -/
def handler (parseDate : String → Option String) (env : NormalizeEnv)
    (camelCase : String → String) (errorify : JsError → String)
    (internalResult inventoryResult : Except JsError Unit)
    (createStartTimeFmt : String) (event : ReportEvent) :
    Except TypeErrorModel (List TrackOp × TrackedRecord) := do
  let reportParams ← normalizeEvent parseDate env event
  pure (processRequest camelCase errorify internalResult inventoryResult
    { reportType := reportParams.reportType
      reportName := reportParams.reportName
      systemBucket := reportParams.systemBucket.getD ("")
      stackName := reportParams.stackName.getD ("")
      createStartTimeFmt := createStartTimeFmt })

/-! ## Claim theorems -/

/-- C3: for every source sequence and every partition of that sequence into
pages, the bucket-level merge-join consumed through the paginated cursor
(peek/shift, one page buffered at a time) returns exactly the same sub-report
as the same sources exposed as one single page each. -/
theorem C3_cursor_pagination_invariance (Bucket : String)
    (s3Q : List (List S3Object)) (dynQ : List (List DynamoItem)) :
    createReconciliationReportForBucket Bucket s3Q dynQ =
      createReconciliationReportForBucket Bucket [s3Q.flatten] [dynQ.flatten] := by
  rw [createReconciliationReportForBucket_flatten,
    createReconciliationReportForBucket_flatten]
  simp

/-- C2: whenever one-way mode is in effect (a truthy `startTimestamp` or
`endTimestamp` in the report parameters), the collection-level comparison and
the granule-level comparison both return an empty `onlyInCmr` list, for every
input. -/
theorem C2_oneWay_onlyInCmr_empty (recReportParams : RecReportParams)
    (cmrCollectionIds esCollectionIds : List String) (collectionId : String)
    (construct : String → FileRec → Option String) (bucketsConfig : BucketsConfigModel)
    (esQ : List (List DbGranule)) (cmrQ : List (List UmmGranule))
    (hOne : isOneWayReport recReportParams = true) :
    (reconciliationReportForCollections recReportParams cmrCollectionIds
      esCollectionIds).onlyInCmr = []
    ∧ (reconciliationReportForGranules recReportParams collectionId construct
      bucketsConfig esQ cmrQ).1.onlyInCmr = [] := by
  constructor
  · unfold reconciliationReportForCollections
    rw [hOne]
    exact collectionsCompareLoop_oneWay esCollectionIds cmrCollectionIds ⟨[], [], []⟩
  · unfold reconciliationReportForGranules
    rw [hOne]
    exact granulesCompareLoop_oneWay collectionId construct bucketsConfig esQ cmrQ
      ⟨0, [], []⟩ ⟨0, [], []⟩

/-- Witness for C2 at a concrete one-way input. -/
theorem C2_oneWay_onlyInCmr_empty_witness :
    (reconciliationReportForCollections ⟨some ("2020-01-01T00:00:00Z"), none⟩
      ["X___v1"] ["Z___v1"]).onlyInCmr = []
    ∧ (reconciliationReportForGranules ⟨some ("2020-01-01T00:00:00Z"), none⟩
      ("X___v1") (fun _ _ => none) [] [[⟨"g1", []⟩]] [[]]).1.onlyInCmr = [] :=
  C2_oneWay_onlyInCmr_empty ⟨some ("2020-01-01T00:00:00Z"), none⟩
    ["X___v1"] ["Z___v1"] ("X___v1") (fun _ _ => none) [] [[⟨"g1", []⟩]] [[]]
    (by decide)

/-- C7: every run of `processRequest` first persists the tracking record with
status `Pending` (carrying name, type and location) before the comparisons
run; it ends with the record updated to `Generated` on success or to `Failed`
with the error message and cause on any sub-reconciler error, and the returned
record is never left in `Pending`. -/
theorem C7_processRequest_lifecycle (camelCase : String → String)
    (errorify : JsError → String) (internalResult inventoryResult : Except JsError Unit)
    (params : ProcessParams) :
    ((processRequest camelCase errorify internalResult inventoryResult params).1.take 2 =
      [TrackOp.createRecord
        { name := reconciliationReportName camelCase params
          type := params.reportType
          status := "Pending"
          location := buildS3Uri params.systemBucket
            (reconciliationReportKey params (reconciliationReportName camelCase params))
          error := none },
       TrackOp.runComparisons])
    ∧ (match (if params.reportType = "Internal" then internalResult else inventoryResult) with
       | .ok _ =>
         (processRequest camelCase errorify internalResult inventoryResult params).2.status =
             "Generated"
           ∧ (processRequest camelCase errorify internalResult inventoryResult params).2.error =
             none
       | .error e =>
         (processRequest camelCase errorify internalResult inventoryResult params).2.status =
             "Failed"
           ∧ (processRequest camelCase errorify internalResult inventoryResult params).2.error =
             some (e.message, errorify e))
    ∧ ((processRequest camelCase errorify internalResult inventoryResult params).2.status =
          "Generated"
        ∨ (processRequest camelCase errorify internalResult inventoryResult params).2.status =
          "Failed") := by
  unfold processRequest
  cases hres : (if params.reportType = "Internal" then internalResult else inventoryResult) with
  | ok u => simp [hres]
  | error e => simp [hres]

/-- C8 counterexample: at a concrete input the two statuses actually written
into the persisted report document are `Pending` and `SUCCESS`, and `SUCCESS`
is not one of `Pending`, `Generated`, `Failed`. -/
theorem C8_counterexample :
    (createReconciliationReport ("Inventory") ("2021-01-01T00:00:00.000Z") []
      ⟨⟨0, [], []⟩, ⟨0, [], []⟩, ⟨0, [], []⟩⟩ ("2021-01-01T01:00:00.000Z")).map
      (fun doc => doc.header.status) = ["Pending", "SUCCESS"]
    ∧ (["Pending", "Generated", "Failed"].contains ("SUCCESS")) = false := by
  constructor
  · rfl
  · decide

/-- C8 as amended: the statuses written into the persisted report document
are exactly `Pending` (the initial checkpoint, per the report header) followed
by `SUCCESS` (the final write); the `Pending → Generated/Failed` lifecycle
belongs to the tracking record, not the report document. -/
theorem C8_report_document_statuses (reportType createStartTime : String)
    (bucketSources : List BucketSource) (cumulusCmrReport : CumulusCmrReports)
    (createEndTime : String) :
    (createReconciliationReport reportType createStartTime bucketSources
      cumulusCmrReport createEndTime).map (fun doc => doc.header.status) =
      ["Pending", "SUCCESS"] := rfl

/-- C9: an event whose `startTimestamp` or `endTimestamp` is present but not
parsable as a date, or which supplies the plural `collectionIds` key, makes
the handler fail with a `TypeError` during normalization — the result is an
error, so `processRequest` never runs: no tracking record is created and no
report document is written. -/
theorem C9_input_errors_are_fatal_before_work (parseDate : String → Option String)
    (env : NormalizeEnv) (camelCase : String → String) (errorify : JsError → String)
    (internalResult inventoryResult : Except JsError Unit)
    (createStartTimeFmt : String) (event : ReportEvent) :
    (truthyOptStr event.startTimestamp = true →
      parseDate (event.startTimestamp.getD ("")) = none →
      ∃ err, handler parseDate env camelCase errorify internalResult inventoryResult
        createStartTimeFmt event = Except.error err)
    ∧ (truthyOptStr event.endTimestamp = true →
      parseDate (event.endTimestamp.getD ("")) = none →
      ∃ err, handler parseDate env camelCase errorify internalResult inventoryResult
        createStartTimeFmt event = Except.error err)
    ∧ (event.collectionIds.isSome = true →
      truthyCollectionId event.collectionId = true →
      ∃ err, handler parseDate env camelCase errorify internalResult inventoryResult
        createStartTimeFmt event = Except.error err) := by
  refine ⟨?_, ?_, ?_⟩
  · intro ht hp
    have h1 : isoTimestamp parseDate event.startTimestamp =
        .error ⟨event.startTimestamp.getD ("") ++ " is not a valid input for new Date()."⟩ := by
      unfold isoTimestamp
      rw [if_pos ht, hp]
    refine ⟨⟨event.startTimestamp.getD ("") ++ " is not a valid input for new Date()."⟩, ?_⟩
    unfold handler normalizeEvent
    rw [h1]
    rfl
  · intro ht hp
    have h2 : isoTimestamp parseDate event.endTimestamp =
        .error ⟨event.endTimestamp.getD ("") ++ " is not a valid input for new Date()."⟩ := by
      unfold isoTimestamp
      rw [if_pos ht, hp]
    cases h1 : isoTimestamp parseDate event.startTimestamp with
    | error e =>
      refine ⟨e, ?_⟩
      unfold handler normalizeEvent
      rw [h1]
      rfl
    | ok st =>
      refine ⟨⟨event.endTimestamp.getD ("") ++ " is not a valid input for new Date()."⟩, ?_⟩
      unfold handler normalizeEvent
      rw [h1, h2]
      rfl
  · intro hcid _
    cases h1 : isoTimestamp parseDate event.startTimestamp with
    | error e =>
      refine ⟨e, ?_⟩
      unfold handler normalizeEvent
      rw [h1]
      rfl
    | ok st =>
      cases h2 : isoTimestamp parseDate event.endTimestamp with
      | error e =>
        refine ⟨e, ?_⟩
        unfold handler normalizeEvent
        rw [h1, h2]
        rfl
      | ok en =>
        refine ⟨⟨"`collectionIds` is not a valid input key for a reconciliation report, use `collectionId` instead."⟩, ?_⟩
        unfold handler normalizeEvent
        rw [h1, h2]
        simp only [hcid]
        rfl

/-- C10: an event that defines the plural `collectionIds` key is rejected by
normalization with a `TypeError` even when no singular `collectionId` is
supplied; with well-formed timestamps the error is precisely the
`collectionIds`-rejection message. -/
theorem C10_collectionIds_rejected_outright (parseDate : String → Option String)
    (env : NormalizeEnv) (event : ReportEvent)
    (hcid : event.collectionIds.isSome = true)
    (hnone : event.collectionId = none) :
    (∃ err, normalizeEvent parseDate env event = Except.error err)
    ∧ (event.startTimestamp = none → event.endTimestamp = none →
      normalizeEvent parseDate env event = Except.error
        ⟨"`collectionIds` is not a valid input key for a reconciliation report, use `collectionId` instead."⟩) := by
  constructor
  · cases h1 : isoTimestamp parseDate event.startTimestamp with
    | error e =>
      refine ⟨e, ?_⟩
      unfold normalizeEvent
      rw [h1]
      rfl
    | ok st =>
      cases h2 : isoTimestamp parseDate event.endTimestamp with
      | error e =>
        refine ⟨e, ?_⟩
        unfold normalizeEvent
        rw [h1, h2]
        rfl
      | ok en =>
        refine ⟨⟨"`collectionIds` is not a valid input key for a reconciliation report, use `collectionId` instead."⟩, ?_⟩
        unfold normalizeEvent
        rw [h1, h2]
        simp only [hcid]
        rfl
  · intro hs he
    have h1 : isoTimestamp parseDate event.startTimestamp = .ok none := by
      unfold isoTimestamp
      rw [hs]
      rfl
    have h2 : isoTimestamp parseDate event.endTimestamp = .ok none := by
      unfold isoTimestamp
      rw [he]
      rfl
    unfold normalizeEvent
    rw [h1, h2]
    simp only [hcid]
    rfl

/-- Witness for C10 at a concrete event carrying only `collectionIds`. -/
theorem C10_collectionIds_rejected_outright_witness :
    (∃ err, normalizeEvent (fun _ => none) ⟨none, none⟩
      ⟨none, none, none, none, none, none, some ["X___v1"], none⟩ = Except.error err)
    ∧ (Option.none = (none : Option String) → Option.none = (none : Option String) →
      normalizeEvent (fun _ => none) ⟨none, none⟩
        ⟨none, none, none, none, none, none, some ["X___v1"], none⟩ = Except.error
        ⟨"`collectionIds` is not a valid input key for a reconciliation report, use `collectionId` instead."⟩) :=
  C10_collectionIds_rejected_outright (fun _ => none) ⟨none, none⟩
    ⟨none, none, none, none, none, none, some ["X___v1"], none⟩ (by decide) (by decide)

theorem keyByFileName_name_inj {files : List FileRec} {g f : FileRec}
    (hg : g ∈ keyByFileName files) (hf : f ∈ keyByFileName files)
    (h : g.fileName = f.fileName) : g = f :=
  List.inj_on_of_nodup_map (keyByFileName_names_nodup files) hg hf h

theorem mem_granuleFilesRemaining (construct : String → FileRec → Option String)
    (bucketsConfig : BucketsConfigModel) (granuleInDb : DbGranule)
    (granuleInCmr : UmmGranule) {f : FileRec}
    (hf : f ∈ keyByFileName granuleInDb.files)
    (hu : ∀ u ∈ granuleInCmr.RelatedUrls, urlFileName u.URL ≠ f.fileName) :
    f ∈ granuleFilesRemaining construct bucketsConfig granuleInDb granuleInCmr := by
  unfold granuleFilesRemaining
  apply List.mem_filter.mpr
  refine ⟨hf, ?_⟩
  cases hcont : (removedFileNames
      (urlActions construct bucketsConfig granuleInDb granuleInCmr)).contains f.fileName
  · simp
  · exfalso
    have hmem : f.fileName ∈ removedFileNames
        (urlActions construct bucketsConfig granuleInDb granuleInCmr) := by
      simpa using hcont
    obtain ⟨u, humem, he⟩ := mem_removed_imp construct bucketsConfig granuleInDb
      granuleInCmr f.fileName hmem
    exact hu u humem he

/-- C5: a local granule file referenced by no catalog URL entry ends in the
remaining-file pass; if it lives in a private bucket it is counted in
`okCount` (it joins the private remaining files, which `okCount` adds to the
URL matches) and never appears in `onlyInCumulus`; if its bucket has any
other configured visibility, its entry is recorded in `onlyInCumulus`. -/
theorem C5_private_ok_protected_drift (construct : String → FileRec → Option String)
    (bucketsConfig : BucketsConfigModel) (granuleInDb : DbGranule)
    (granuleInCmr : UmmGranule) (f : FileRec)
    (hf : f ∈ keyByFileName granuleInDb.files)
    (hu : ∀ u ∈ granuleInCmr.RelatedUrls, urlFileName u.URL ≠ f.fileName) :
    (bucketsConfigType bucketsConfig f.bucket = some ("private") →
      f ∈ (granuleFilesRemaining construct bucketsConfig granuleInDb granuleInCmr).filter
          (isPrivateFile bucketsConfig)
      ∧ (reconciliationReportForGranuleFiles construct bucketsConfig granuleInDb
          granuleInCmr).okCount =
        (urlActions construct bucketsConfig granuleInDb granuleInCmr).countP actionOk
        + ((granuleFilesRemaining construct bucketsConfig granuleInDb granuleInCmr).filter
            (isPrivateFile bucketsConfig)).length
      ∧ (∀ e ∈ (reconciliationReportForGranuleFiles construct bucketsConfig granuleInDb
          granuleInCmr).onlyInCumulus, e.fileName ≠ f.fileName))
    ∧ (∀ t, bucketsConfigType bucketsConfig f.bucket = some t → t ≠ "private" →
      (⟨f.fileName, cumulusFileUri f, granuleInDb.granuleId⟩ : CumulusFileEntry) ∈
        (reconciliationReportForGranuleFiles construct bucketsConfig granuleInDb
          granuleInCmr).onlyInCumulus) := by
  have hremain := mem_granuleFilesRemaining construct bucketsConfig granuleInDb
    granuleInCmr hf hu
  constructor
  · intro hpriv
    have hpf : isPrivateFile bucketsConfig f = true := by
      unfold isPrivateFile
      rw [bucketsConfigKey_of_type hpriv, hpriv]
      simp
    refine ⟨List.mem_filter.mpr ⟨hremain, hpf⟩,
      reconciliationReportForGranuleFiles_okCount construct bucketsConfig granuleInDb
        granuleInCmr, ?_⟩
    intro e he hename
    rw [reconciliationReportForGranuleFiles_onlyInCumulus] at he
    obtain ⟨g, hg, hge⟩ := List.mem_map.mp he
    have hgname : g.fileName = f.fileName := by
      rw [← hge] at hename
      exact hename
    have hgmem : g ∈ keyByFileName granuleInDb.files :=
      (List.mem_filter.mp (List.mem_filter.mp hg).1).1
    have : g = f := keyByFileName_name_inj hgmem hf hgname
    subst this
    have hgnp := (List.mem_filter.mp hg).2
    rw [hpf] at hgnp
    simp at hgnp
  · intro t ht htne
    have hnp : isPrivateFile bucketsConfig f = false := by
      unfold isPrivateFile
      rw [ht]
      simp [htne]
    rw [reconciliationReportForGranuleFiles_onlyInCumulus]
    exact List.mem_map.mpr ⟨f, List.mem_filter.mpr ⟨hremain, by simp [hnp]⟩, rfl⟩

/-- Witness for C5 at concrete private and protected files absent from the
catalog. -/
theorem C5_private_ok_protected_drift_witness :
    ((bucketsConfigType [("priv-b", "private")] ("priv-b") = some ("private") →
      (⟨"f2", "priv-b", "k2", "s2"⟩ : FileRec) ∈
        (granuleFilesRemaining (fun _ _ => none) [("priv-b", "private")]
          ⟨"g1", [⟨"f2", "priv-b", "k2", "s2"⟩]⟩ ⟨"gur", "SN", "V", []⟩).filter
          (isPrivateFile [("priv-b", "private")])
      ∧ (reconciliationReportForGranuleFiles (fun _ _ => none) [("priv-b", "private")]
          ⟨"g1", [⟨"f2", "priv-b", "k2", "s2"⟩]⟩ ⟨"gur", "SN", "V", []⟩).okCount =
        (urlActions (fun _ _ => none) [("priv-b", "private")]
          ⟨"g1", [⟨"f2", "priv-b", "k2", "s2"⟩]⟩ ⟨"gur", "SN", "V", []⟩).countP actionOk
        + ((granuleFilesRemaining (fun _ _ => none) [("priv-b", "private")]
            ⟨"g1", [⟨"f2", "priv-b", "k2", "s2"⟩]⟩ ⟨"gur", "SN", "V", []⟩).filter
            (isPrivateFile [("priv-b", "private")])).length
      ∧ (∀ e ∈ (reconciliationReportForGranuleFiles (fun _ _ => none) [("priv-b", "private")]
          ⟨"g1", [⟨"f2", "priv-b", "k2", "s2"⟩]⟩ ⟨"gur", "SN", "V", []⟩).onlyInCumulus,
          e.fileName ≠ "f2"))
    ∧ (∀ t, bucketsConfigType [("priv-b", "private")] ("priv-b") = some t → t ≠ "private" →
      (⟨"f2", cumulusFileUri ⟨"f2", "priv-b", "k2", "s2"⟩, "g1"⟩ : CumulusFileEntry) ∈
        (reconciliationReportForGranuleFiles (fun _ _ => none) [("priv-b", "private")]
          ⟨"g1", [⟨"f2", "priv-b", "k2", "s2"⟩]⟩ ⟨"gur", "SN", "V", []⟩).onlyInCumulus)) :=
  C5_private_ok_protected_drift (fun _ _ => none) [("priv-b", "private")]
    ⟨"g1", [⟨"f2", "priv-b", "k2", "s2"⟩]⟩ ⟨"gur", "SN", "V", []⟩
    ⟨"f2", "priv-b", "k2", "s2"⟩ (by decide) (by decide)

/-- C6: a download- or related-information-role catalog URL entry whose
referenced filename matches a local file in a configured, non-private bucket
is classified by the two candidate URLs: on a match it becomes an `okMatch`
(recorded in `okCount` and removing the file from further consideration);
otherwise, when the role is a download role, the entry is recorded in
`onlyInCmr`. -/
theorem C6_url_entry_classification (construct : String → FileRec → Option String)
    (bucketsConfig : BucketsConfigModel) (granuleInDb : DbGranule)
    (granuleInCmr : UmmGranule) (u : RelatedUrl) (f : FileRec)
    (hu : u ∈ granuleInCmr.RelatedUrls)
    (hrel : (cmrGetDataTypes.contains u.«Type»
      || cmrRelatedDataTypes.contains u.«Type») = true)
    (hfind : findGranuleFile (keyByFileName granuleInDb.files) (urlFileName u.URL) = some f)
    (hkey : bucketsConfigKey bucketsConfig f.bucket = true)
    (hnp : bucketsConfigType bucketsConfig f.bucket ≠ some ("private")) :
    (urlMatches construct f u = true →
      classifyRelatedUrl construct bucketsConfig (keyByFileName granuleInDb.files)
        granuleInCmr.GranuleUR u = .okMatch (urlFileName u.URL)
      ∧ urlFileName u.URL ∈ removedFileNames
          (urlActions construct bucketsConfig granuleInDb granuleInCmr)
      ∧ 0 < (urlActions construct bucketsConfig granuleInDb granuleInCmr).countP actionOk
      ∧ (∀ g ∈ granuleFilesRemaining construct bucketsConfig granuleInDb granuleInCmr,
          g.fileName ≠ urlFileName u.URL))
    ∧ (urlMatches construct f u = false → cmrGetDataTypes.contains u.«Type» = true →
      (⟨u.URL, u.«Type», granuleInCmr.GranuleUR⟩ : CmrUrlEntry) ∈
        (reconciliationReportForGranuleFiles construct bucketsConfig granuleInDb
          granuleInCmr).onlyInCmr) := by
  constructor
  · intro hm
    have hclass : classifyRelatedUrl construct bucketsConfig
        (keyByFileName granuleInDb.files) granuleInCmr.GranuleUR u =
        .okMatch (urlFileName u.URL) := by
      unfold classifyRelatedUrl
      repeat' split
      all_goals simp_all
    have hmem : urlFileName u.URL ∈ removedFileNames
        (urlActions construct bucketsConfig granuleInDb granuleInCmr) := by
      unfold removedFileNames urlActions
      apply List.mem_filterMap.mpr
      exact ⟨_, List.mem_map_of_mem _ hu, by rw [hclass]; rfl⟩
    refine ⟨hclass, hmem, ?_, ?_⟩
    · unfold urlActions
      apply List.countP_pos.mpr
      exact ⟨_, List.mem_map_of_mem _ hu, by rw [hclass]; rfl⟩
    · intro g hg heq
      have hgr := (List.mem_filter.mp hg).2
      have hc : (removedFileNames (urlActions construct bucketsConfig granuleInDb
          granuleInCmr)).contains g.fileName = true := by
        rw [heq]
        simpa using hmem
      rw [hc] at hgr
      simp at hgr
  · intro hm hdl
    have hclass : classifyRelatedUrl construct bucketsConfig
        (keyByFileName granuleInDb.files) granuleInCmr.GranuleUR u =
        .cmrOnly ⟨u.URL, u.«Type», granuleInCmr.GranuleUR⟩ (some (urlFileName u.URL)) := by
      unfold classifyRelatedUrl
      repeat' split
      all_goals simp_all
    rw [reconciliationReportForGranuleFiles_onlyInCmr]
    unfold urlActions
    apply List.mem_filterMap.mpr
    exact ⟨_, List.mem_map_of_mem _ hu, by rw [hclass]; rfl⟩

/-- Witness for C6 at a concrete matching download URL. -/
theorem C6_url_entry_classification_witness :
    (urlMatches
        (fun mode f => if mode = "distribution"
          then some ("https://dist/" ++ f.bucket ++ "/" ++ f.key)
          else some (buildS3Uri f.bucket f.key))
        ⟨"f1", "prot-b", "f1", "s1"⟩ ⟨"https://dist/prot-b/f1", "GET DATA"⟩ = true →
      classifyRelatedUrl
        (fun mode f => if mode = "distribution"
          then some ("https://dist/" ++ f.bucket ++ "/" ++ f.key)
          else some (buildS3Uri f.bucket f.key))
        [("prot-b", "protected")]
        (keyByFileName [⟨"f1", "prot-b", "f1", "s1"⟩])
        ("gur")
        ⟨"https://dist/prot-b/f1", "GET DATA"⟩ =
          .okMatch (urlFileName ("https://dist/prot-b/f1"))
      ∧ urlFileName ("https://dist/prot-b/f1") ∈ removedFileNames
          (urlActions
            (fun mode f => if mode = "distribution"
              then some ("https://dist/" ++ f.bucket ++ "/" ++ f.key)
              else some (buildS3Uri f.bucket f.key))
            [("prot-b", "protected")]
            ⟨"g1", [⟨"f1", "prot-b", "f1", "s1"⟩]⟩
            ⟨"gur", "SN", "V", [⟨"https://dist/prot-b/f1", "GET DATA"⟩]⟩)
      ∧ 0 < (urlActions
            (fun mode f => if mode = "distribution"
              then some ("https://dist/" ++ f.bucket ++ "/" ++ f.key)
              else some (buildS3Uri f.bucket f.key))
            [("prot-b", "protected")]
            ⟨"g1", [⟨"f1", "prot-b", "f1", "s1"⟩]⟩
            ⟨"gur", "SN", "V", [⟨"https://dist/prot-b/f1", "GET DATA"⟩]⟩).countP actionOk
      ∧ (∀ g ∈ granuleFilesRemaining
            (fun mode f => if mode = "distribution"
              then some ("https://dist/" ++ f.bucket ++ "/" ++ f.key)
              else some (buildS3Uri f.bucket f.key))
            [("prot-b", "protected")]
            ⟨"g1", [⟨"f1", "prot-b", "f1", "s1"⟩]⟩
            ⟨"gur", "SN", "V", [⟨"https://dist/prot-b/f1", "GET DATA"⟩]⟩,
          g.fileName ≠ urlFileName ("https://dist/prot-b/f1")))
    ∧ (urlMatches
        (fun mode f => if mode = "distribution"
          then some ("https://dist/" ++ f.bucket ++ "/" ++ f.key)
          else some (buildS3Uri f.bucket f.key))
        ⟨"f1", "prot-b", "f1", "s1"⟩ ⟨"https://dist/prot-b/f1", "GET DATA"⟩ = false →
      cmrGetDataTypes.contains ("GET DATA") = true →
      (⟨"https://dist/prot-b/f1", "GET DATA", "gur"⟩ : CmrUrlEntry) ∈
        (reconciliationReportForGranuleFiles
          (fun mode f => if mode = "distribution"
            then some ("https://dist/" ++ f.bucket ++ "/" ++ f.key)
            else some (buildS3Uri f.bucket f.key))
          [("prot-b", "protected")]
          ⟨"g1", [⟨"f1", "prot-b", "f1", "s1"⟩]⟩
          ⟨"gur", "SN", "V", [⟨"https://dist/prot-b/f1", "GET DATA"⟩]⟩).onlyInCmr) :=
  C6_url_entry_classification
    (fun mode f => if mode = "distribution"
      then some ("https://dist/" ++ f.bucket ++ "/" ++ f.key)
      else some (buildS3Uri f.bucket f.key))
    [("prot-b", "protected")]
    ⟨"g1", [⟨"f1", "prot-b", "f1", "s1"⟩]⟩
    ⟨"gur", "SN", "V", [⟨"https://dist/prot-b/f1", "GET DATA"⟩]⟩
    ⟨"https://dist/prot-b/f1", "GET DATA"⟩
    ⟨"f1", "prot-b", "f1", "s1"⟩
    (by decide) (by decide) (by decide) (by decide) (by decide)

/-- C4 counterexample: a granule with one local file in a configured protected
bucket and one download-role catalog URL whose filename matches that file but
whose URL matches neither candidate access URL. The classifier records the URL
in `onlyInCmr` and deletes the local file from further consideration, so the
file is counted in neither `okCount` nor `onlyInCumulus`: the per-file
accounting `|files| = okCount + |onlyInCumulus|` claimed by the spec fails. -/
theorem C4_counterexample :
    ([(⟨"f1", "prot-bucket", "k1", "src1"⟩ : FileRec)].length = 1
    ∧ (reconciliationReportForGranuleFiles
        (fun _ f => some (buildS3Uri f.bucket f.key))
        [("prot-bucket", "protected")]
        ⟨"g1", [⟨"f1", "prot-bucket", "k1", "src1"⟩]⟩
        ⟨"gur1", "SN", "V1", [⟨"https://other/f1", "GET DATA"⟩]⟩).okCount = 0
    ∧ (reconciliationReportForGranuleFiles
        (fun _ f => some (buildS3Uri f.bucket f.key))
        [("prot-bucket", "protected")]
        ⟨"g1", [⟨"f1", "prot-bucket", "k1", "src1"⟩]⟩
        ⟨"gur1", "SN", "V1", [⟨"https://other/f1", "GET DATA"⟩]⟩).onlyInCumulus = []
    ∧ (reconciliationReportForGranuleFiles
        (fun _ f => some (buildS3Uri f.bucket f.key))
        [("prot-bucket", "protected")]
        ⟨"g1", [⟨"f1", "prot-bucket", "k1", "src1"⟩]⟩
        ⟨"gur1", "SN", "V1", [⟨"https://other/f1", "GET DATA"⟩]⟩).onlyInCmr.length = 1
    ∧ ¬ ([(⟨"f1", "prot-bucket", "k1", "src1"⟩ : FileRec)].length =
        (reconciliationReportForGranuleFiles
          (fun _ f => some (buildS3Uri f.bucket f.key))
          [("prot-bucket", "protected")]
          ⟨"g1", [⟨"f1", "prot-bucket", "k1", "src1"⟩]⟩
          ⟨"gur1", "SN", "V1", [⟨"https://other/f1", "GET DATA"⟩]⟩).okCount
        + (reconciliationReportForGranuleFiles
            (fun _ f => some (buildS3Uri f.bucket f.key))
            [("prot-bucket", "protected")]
            ⟨"g1", [⟨"f1", "prot-bucket", "k1", "src1"⟩]⟩
            ⟨"gur1", "SN", "V1", [⟨"https://other/f1", "GET DATA"⟩]⟩).onlyInCumulus.length)) := by
  decide

/-- C4 (amended): the accounting that actually holds in
`reconciliationReportForGranuleFiles`. (1) `okCount` is exactly the number of
catalog URL entries classified as matches plus the number of unmatched local
files in private buckets; (2) every download-role catalog URL entry is
accounted for exactly once across the matched entries and `onlyInCmr`;
(3) every de-duplicated local file is accounted for exactly once across the
files deleted during URL processing (matched or merely referenced), the
remaining private-bucket files, and `onlyInCumulus`. Files deleted by a
referenced-but-non-matching download URL are dropped without a local-side
entry, which is the respect in which the original claim fails. -/
theorem C4_amended_accounting (construct : String → FileRec → Option String)
    (bucketsConfig : BucketsConfigModel) (granuleInDb : DbGranule)
    (granuleInCmr : UmmGranule) :
    ((reconciliationReportForGranuleFiles construct bucketsConfig granuleInDb
      granuleInCmr).okCount =
      (urlActions construct bucketsConfig granuleInDb granuleInCmr).countP actionOk
      + ((granuleFilesRemaining construct bucketsConfig granuleInDb granuleInCmr).filter
          (isPrivateFile bucketsConfig)).length)
    ∧ ((granuleInCmr.RelatedUrls.filter (fun u => cmrGetDataTypes.contains u.«Type»)).length =
      (granuleInCmr.RelatedUrls.filter (fun u => cmrGetDataTypes.contains u.«Type»
        && actionOk (classifyRelatedUrl construct bucketsConfig
          (keyByFileName granuleInDb.files) granuleInCmr.GranuleUR u))).length
      + (reconciliationReportForGranuleFiles construct bucketsConfig granuleInDb
          granuleInCmr).onlyInCmr.length)
    ∧ ((keyByFileName granuleInDb.files).length =
      ((keyByFileName granuleInDb.files).filter (fun f =>
        (removedFileNames (urlActions construct bucketsConfig granuleInDb
          granuleInCmr)).contains f.fileName)).length
      + ((granuleFilesRemaining construct bucketsConfig granuleInDb granuleInCmr).filter
          (isPrivateFile bucketsConfig)).length
      + (reconciliationReportForGranuleFiles construct bucketsConfig granuleInDb
          granuleInCmr).onlyInCumulus.length) :=
  ⟨reconciliationReportForGranuleFiles_okCount construct bucketsConfig granuleInDb granuleInCmr,
   downloadUrls_accounting construct bucketsConfig granuleInDb granuleInCmr,
   granuleFiles_accounting construct bucketsConfig granuleInDb granuleInCmr⟩

/-- C1 (amended): for sorted, duplicate-free inputs, the bucket-level
merge-join returns `okCount = |A∩B|`, `onlyInS3 = A\B` in original order,
`onlyInDynamoDb = B\A` in original order, with `|A| = okCount + |onlyInS3|`
and `|B| = okCount + |onlyInDynamoDb|`; and the collection-level merge-join
over two sorted in-memory id sequences satisfies the same five identities
provided no id is the empty string — an empty-string id is falsy in
JavaScript, stops the scan, and drains both remainders into the exclusive
lists (see `C1_counterexample`). -/
theorem C1_merge_join_correctness (Bucket : String)
    (s3Q : List (List S3Object)) (dynQ : List (List DynamoItem))
    (recReportParams : RecReportParams)
    (cmrCollectionIds esCollectionIds : List String)
    (hcs : List.Chain' (· < ·) (s3Uris Bucket s3Q.flatten))
    (hcd : List.Chain' (· < ·) (dynUris Bucket dynQ.flatten))
    (hOne : isOneWayReport recReportParams = false)
    (hces : List.Chain' (· < ·) esCollectionIds)
    (hccmr : List.Chain' (· < ·) cmrCollectionIds)
    (hesne : ("" : String) ∉ esCollectionIds)
    (hcmrne : ("" : String) ∉ cmrCollectionIds) :
    ((createReconciliationReportForBucket Bucket s3Q dynQ).okCount =
      ((s3Uris Bucket s3Q.flatten).filter
        (fun u => decide (u ∈ dynUris Bucket dynQ.flatten))).length
    ∧ (createReconciliationReportForBucket Bucket s3Q dynQ).onlyInS3 =
      (s3Uris Bucket s3Q.flatten).filter
        (fun u => !decide (u ∈ dynUris Bucket dynQ.flatten))
    ∧ (createReconciliationReportForBucket Bucket s3Q dynQ).onlyInDynamoDb =
      (dynQ.flatten.filter
        (fun d => !decide (buildS3Uri Bucket d.key ∈ s3Uris Bucket s3Q.flatten))).map
        (fun d => ⟨buildS3Uri Bucket d.key, d.granuleId⟩)
    ∧ s3Q.flatten.length = (createReconciliationReportForBucket Bucket s3Q dynQ).okCount +
        (createReconciliationReportForBucket Bucket s3Q dynQ).onlyInS3.length
    ∧ dynQ.flatten.length = (createReconciliationReportForBucket Bucket s3Q dynQ).okCount +
        (createReconciliationReportForBucket Bucket s3Q dynQ).onlyInDynamoDb.length)
    ∧ ((reconciliationReportForCollections recReportParams cmrCollectionIds
        esCollectionIds).okCollections =
      esCollectionIds.filter (fun u => decide (u ∈ cmrCollectionIds))
    ∧ (reconciliationReportForCollections recReportParams cmrCollectionIds
        esCollectionIds).onlyInCumulus =
      esCollectionIds.filter (fun u => !decide (u ∈ cmrCollectionIds))
    ∧ (reconciliationReportForCollections recReportParams cmrCollectionIds
        esCollectionIds).onlyInCmr =
      cmrCollectionIds.filter (fun u => !decide (u ∈ esCollectionIds))
    ∧ esCollectionIds.length =
      (reconciliationReportForCollections recReportParams cmrCollectionIds
        esCollectionIds).okCollections.length +
      (reconciliationReportForCollections recReportParams cmrCollectionIds
        esCollectionIds).onlyInCumulus.length
    ∧ cmrCollectionIds.length =
      (reconciliationReportForCollections recReportParams cmrCollectionIds
        esCollectionIds).okCollections.length +
      (reconciliationReportForCollections recReportParams cmrCollectionIds
        esCollectionIds).onlyInCmr.length) :=
  ⟨createReconciliationReportForBucket_spec Bucket s3Q dynQ hcs hcd,
   reconciliationReportForCollections_spec recReportParams cmrCollectionIds
     esCollectionIds hOne hces hccmr hesne hcmrne⟩

/-- Witness for C1: storage keys a, b, d split across two pages against
inventory keys a, c, d split across two pages, and collection ids
c1, c2 against c1, c3. -/
theorem C1_merge_join_correctness_witness :
    (createReconciliationReportForBucket ("b")
        [[(⟨"a"⟩ : S3Object), ⟨"b"⟩], [⟨"d"⟩]]
        [[(⟨"a", "g1"⟩ : DynamoItem)], [⟨"c", "g2"⟩, ⟨"d", "g3"⟩]]).okCount =
      ((s3Uris ("b") [[(⟨"a"⟩ : S3Object), ⟨"b"⟩], [⟨"d"⟩]].flatten).filter
        (fun u => decide (u ∈ dynUris ("b")
          [[(⟨"a", "g1"⟩ : DynamoItem)], [⟨"c", "g2"⟩, ⟨"d", "g3"⟩]].flatten))).length
    ∧ (reconciliationReportForCollections ⟨none, none⟩ ["c1", "c3"]
        ["c1", "c2"]).okCollections =
      ["c1", "c2"].filter (fun u => decide (u ∈ ["c1", "c3"])) :=
  (fun h => ⟨h.1.1, h.2.1⟩)
    (C1_merge_join_correctness ("b")
      [[(⟨"a"⟩ : S3Object), ⟨"b"⟩], [⟨"d"⟩]]
      [[(⟨"a", "g1"⟩ : DynamoItem)], [⟨"c", "g2"⟩, ⟨"d", "g3"⟩]]
      ⟨none, none⟩ ["c1", "c3"] ["c1", "c2"]
      (by
        simp only [List.flatten_cons, List.flatten_nil, List.append_nil,
          List.cons_append, List.nil_append,
          s3Uris_cons, s3Uris_nil, List.chain'_cons, List.chain'_singleton,
          buildS3Uri, String.lt_iff_toList_lt]
        decide)
      (by
        simp only [List.flatten_cons, List.flatten_nil, List.append_nil,
          List.cons_append, List.nil_append,
          dynUris_cons, dynUris_nil, List.chain'_cons, List.chain'_singleton,
          buildS3Uri, String.lt_iff_toList_lt]
        decide)
      (by decide)
      (by
        simp only [List.chain'_cons, List.chain'_singleton,
          String.lt_iff_toList_lt]
        decide)
      (by
        simp only [List.chain'_cons, List.chain'_singleton,
          String.lt_iff_toList_lt]
        decide)
      (by decide)
      (by decide))

/-- C1 counterexample: the collection-level merge-join does not satisfy
`okCollections = A∩B` for every pair of sorted duplicate-free id sequences.
At `esCollectionIds = ["", "a"]` and `cmrCollectionIds = ["a"]` (both sorted
with distinct keys, two-way mode) the loop guard
`while (nextDbCollectionId && nextCmrCollectionId)` sees the falsy empty
string and exits at once, draining both remainders: the code returns
`okCollections = []` although `A∩B = ["a"]`. -/
theorem C1_counterexample :
    (List.Chain' (· < ·) ["", "a"] ∧ List.Chain' (· < ·) (["a"] : List String)
      ∧ isOneWayReport ⟨none, none⟩ = false)
    ∧ (reconciliationReportForCollections ⟨none, none⟩ ["a"] ["", "a"]).okCollections = []
    ∧ (reconciliationReportForCollections ⟨none, none⟩ ["a"] ["", "a"]).onlyInCumulus = ["", "a"]
    ∧ (reconciliationReportForCollections ⟨none, none⟩ ["a"] ["", "a"]).onlyInCmr = ["a"]
    ∧ ¬ ((reconciliationReportForCollections ⟨none, none⟩ ["a"] ["", "a"]).okCollections =
        ["", "a"].filter (fun u => decide (u ∈ (["a"] : List String)))) := by
  have h1 : reconciliationReportForCollections ⟨none, none⟩ ["a"] ["", "a"] =
      { okCollections := [], onlyInCumulus := ["", "a"], onlyInCmr := ["a"] } := by
    rw [reconciliationReportForCollections, collectionsCompareLoop_falsy (by decide)]
    simp [isOneWayReport, truthyOptStr]
  refine ⟨⟨?_, ?_, by decide⟩, by rw [h1], by rw [h1], by rw [h1], ?_⟩
  · simp only [List.chain'_cons, List.chain'_singleton, String.lt_iff_toList_lt]
    decide
  · simp only [List.chain'_singleton]
  · rw [h1]
    decide
